import Mathlib

/-!
# Verification of the streaming speech-synthesis wire protocol

A shallow embedding of the binary message protocol, the per-connection
message demultiplexer, and the session helpers of the repository
(`protocols` module, the streaming-consumption loop of
`unidirectional_stream.ts` / `tts.service.ts`), together with theorems
settling the specification's claims about them.

Conventions of the embedding:
* `Uint8Array` / `Buffer` values are `List Nat` of byte values.
* Strings (`sessionId`, `connectId`) are represented by their UTF-8 byte
  lists; `Buffer.from(s, 'utf8')` followed by `TextDecoder().decode` is
  the identity on that representation.
* 32-bit big-endian reads/writes (`DataView.setUint32/setInt32/...`) are
  modelled on `Nat`/`Int` with explicit `% 2^32` wrapping.
* `throw` is modelled with `Except`; each distinct throw message of the
  source becomes a distinct error constructor.
* The writer/reader function lists built by `getWriters`/`getReaders`
  are defunctionalized into the `Writer`/`Reader` tag types, with
  `applyWriter`/`applyReader` dispatching to the verbatim translations
  of the individual writer/reader functions.
-/

namespace Protocols

/-! ## Enumeration constants (from `EventType`, `MsgType`, `MsgTypeFlagBits`,
`VersionBits`, `HeaderSizeBits`, `SerializationBits`, `CompressionBits`) -/

namespace EventType

def None : Int := 0
def StartConnection : Int := 1
def FinishConnection : Int := 2
def ConnectionStarted : Int := 50
def ConnectionFailed : Int := 51
def ConnectionFinished : Int := 52
def StartSession : Int := 100
def CancelSession : Int := 101
def FinishSession : Int := 102
def SessionStarted : Int := 150
def SessionCanceled : Int := 151
def SessionFinished : Int := 152
def SessionFailed : Int := 153
def TaskRequest : Int := 200

end EventType

namespace MsgType

def Invalid : Nat := 0
def FullClientRequest : Nat := 1
def AudioOnlyClient : Nat := 2
def FullServerResponse : Nat := 9
def AudioOnlyServer : Nat := 11
def FrontEndResultServer : Nat := 12
def Error : Nat := 15

end MsgType

namespace MsgTypeFlagBits

def NoSeq : Nat := 0
def PositiveSeq : Nat := 1
def LastNoSeq : Nat := 2
def NegativeSeq : Nat := 3
def WithEvent : Nat := 4

end MsgTypeFlagBits

/-! ## The `Message` structure

Numeric header fields are `Nat` (4-bit on the wire); the optional fields
use `Option`, mirroring the `?` fields of the TypeScript interface
(`undefined` = `none`).  `event` and `sequence` are 32-bit signed
(`setInt32`/`getInt32`), hence `Int`; `errorCode` is 32-bit unsigned. -/

@[ext]
structure Message where
  version : Nat
  headerSize : Nat
  type : Nat
  flag : Nat
  serialization : Nat
  compression : Nat
  event : Option Int := none
  sessionId : Option (List Nat) := none
  connectId : Option (List Nat) := none
  sequence : Option Int := none
  errorCode : Option Nat := none
  payload : List Nat := []
  deriving DecidableEq, Repr

/-- `createMessage(msgType, flag)`: fixed version/headerSize/serialization/
compression, empty payload (the `toString` property has no data content). -/
def createMessage (msgType : Nat) (flag : Nat) : Message :=
  { version := 1
    headerSize := 1
    type := msgType
    flag := flag
    serialization := 1
    compression := 0
    payload := [] }

/-! ## Byte-level helpers -/

/-- One packed header byte `(hi << 4) | lo`, truncated to a byte as a
`Uint8Array` store does. -/
def packByte (hi lo : Nat) : Nat := ((hi <<< 4) ||| lo) % 256

/-- Big-endian 4-byte encoding of a 32-bit unsigned value
(`DataView.setUint32(_, n, false)`). -/
def u32be (n : Nat) : List Nat :=
  [n / 2 ^ 24 % 256, n / 2 ^ 16 % 256, n / 2 ^ 8 % 256, n % 256]

/-- Big-endian 4-byte encoding of a 32-bit signed value
(`DataView.setInt32(_, n, false)`, two's complement wrapping). -/
def i32be (e : Int) : List Nat := u32be (e % 2 ^ 32).toNat

/-- Big-endian 4-byte unsigned read at `offset`
(`DataView.getUint32(0, false)` on a view at `offset`). -/
def getU32 (data : List Nat) (offset : Nat) : Nat :=
  data.getD offset 0 * 2 ^ 24 + data.getD (offset + 1) 0 * 2 ^ 16 +
    data.getD (offset + 2) 0 * 2 ^ 8 + data.getD (offset + 3) 0

/-- Big-endian 4-byte signed read at `offset` (`DataView.getInt32`). -/
def getI32 (data : List Nat) (offset : Nat) : Int :=
  let n := getU32 data offset
  if n < 2 ^ 31 then (n : Int) else (n : Int) - 2 ^ 32

/-- `data.slice(offset, offset + size)`. -/
def sliceList (data : List Nat) (offset size : Nat) : List Nat :=
  (data.drop offset).take size

/-! ## Encoder (`marshalMessage` and its writer functions) -/

/-- Error raised by `getWriters`/`getReaders` dispatch
(`unsupported message type: ...`). -/
inductive EncodeError where
  | unsupportedMessageType (t : Nat)
  deriving DecidableEq, Repr

/-- writeEvent: 4-byte big-endian signed event, or nothing when the
event is unset. -/
def writeEvent (msg : Message) : Option (List Nat) :=
  match msg.event with
  | none => none
  | some e => some (i32be e)

/-- writeSessionId: skipped entirely when the event is unset or is one of
StartConnection/FinishConnection/ConnectionStarted/ConnectionFailed;
otherwise a 4-byte big-endian length followed by the bytes of
`msg.sessionId || ''`. -/
def writeSessionId (msg : Message) : Option (List Nat) :=
  match msg.event with
  | none => none
  | some e =>
    if e = EventType.StartConnection ∨ e = EventType.FinishConnection ∨
        e = EventType.ConnectionStarted ∨ e = EventType.ConnectionFailed then
      none
    else
      let sessionId := msg.sessionId.getD []
      some (u32be (sessionId.length % 2 ^ 32) ++ sessionId)

/-- writeSequence: 4-byte big-endian signed sequence, or nothing when
the sequence is unset. -/
def writeSequence (msg : Message) : Option (List Nat) :=
  match msg.sequence with
  | none => none
  | some n => some (i32be n)

/-- writeErrorCode: 4-byte big-endian unsigned error code, or nothing
when the error code is unset. -/
def writeErrorCode (msg : Message) : Option (List Nat) :=
  match msg.errorCode with
  | none => none
  | some c => some (u32be (c % 2 ^ 32))

/-- writePayload: 4-byte big-endian length followed by the payload
bytes; always produced. -/
def writePayload (msg : Message) : Option (List Nat) :=
  some (u32be (msg.payload.length % 2 ^ 32) ++ msg.payload)

/-- Tags for the writer functions pushed by `getWriters`. -/
inductive Writer where
  | wEvent
  | wSessionId
  | wSequence
  | wErrorCode
  | wPayload
  deriving DecidableEq, Repr

def applyWriter : Writer → Message → Option (List Nat)
  | .wEvent, msg => writeEvent msg
  | .wSessionId, msg => writeSessionId msg
  | .wSequence, msg => writeSequence msg
  | .wErrorCode, msg => writeErrorCode msg
  | .wPayload, msg => writePayload msg

/-- Whether the type is one of the five content-bearing message kinds of
the `switch` in `getWriters`/`getReaders`. -/
def isContent (t : Nat) : Bool :=
  t == MsgType.AudioOnlyClient || t == MsgType.AudioOnlyServer ||
    t == MsgType.FrontEndResultServer || t == MsgType.FullClientRequest ||
    t == MsgType.FullServerResponse

/-- getWriters: event and sessionId writers when `flag == WithEvent`;
then, by kind, the sequence writer (content kinds with
PositiveSeq/NegativeSeq) or the errorCode writer (Error kind), failing
on any other kind; finally the payload writer. -/
def getWriters (msg : Message) : Except EncodeError (List Writer) :=
  let base : List Writer :=
    if msg.flag = MsgTypeFlagBits.WithEvent then [.wEvent, .wSessionId] else []
  if isContent msg.type then
    .ok (base ++
      (if msg.flag = MsgTypeFlagBits.PositiveSeq ∨
          msg.flag = MsgTypeFlagBits.NegativeSeq then [.wSequence] else []) ++
      [.wPayload])
  else if msg.type = MsgType.Error then
    .ok (base ++ [.wErrorCode] ++ [.wPayload])
  else
    .error (.unsupportedMessageType msg.type)

/-- The base header: a zero-filled buffer of `4 * headerSize` bytes with
the three packed header bytes stored at indices 0..2 (out-of-range
stores are dropped, as on a `Uint8Array`). -/
def baseHeader (msg : Message) : List Nat :=
  (((List.replicate (4 * msg.headerSize) 0).set 0
      (packByte msg.version msg.headerSize)).set 1
      (packByte msg.type msg.flag)).set 2
      (packByte msg.serialization msg.compression)

/-- marshalMessage: base header, then each writer's bytes in order
(writers returning nothing contribute no bytes). -/
def marshalMessage (msg : Message) : Except EncodeError (List Nat) :=
  match getWriters msg with
  | .error e => .error e
  | .ok writers =>
    .ok (baseHeader msg ++ (writers.map fun w => (applyWriter w msg).getD []).flatten)

/-! ## Decoder (`unmarshalMessage` and its reader functions) -/

/-- Errors raised by `unmarshalMessage`; one constructor per distinct
throw of the source (`data too short`, `unsupported message type`, and
the `insufficient data for ...` family). -/
inductive DecodeError where
  | frameTooShort (got : Nat)
  | unsupportedMessageType (t : Nat)
  | insufficientEvent
  | insufficientSessionIdSize
  | insufficientSessionId
  | insufficientConnectIdSize
  | insufficientConnectId
  | insufficientSequence
  | insufficientErrorCode
  | insufficientPayloadSize
  | insufficientPayload
  deriving DecidableEq, Repr

/-- The `insufficient data for ...` errors: a declared or fixed-width
field extends past the end of the buffer. -/
def DecodeError.isFieldTrunc : DecodeError → Bool
  | .frameTooShort _ => false
  | .unsupportedMessageType _ => false
  | _ => true

/-- readEvent: 4-byte signed big-endian event. -/
def readEvent (msg : Message) (data : List Nat) (offset : Nat) :
    Except DecodeError (Message × Nat) :=
  if offset + 4 > data.length then .error .insufficientEvent
  else .ok ({ msg with event := some (getI32 data offset) }, offset + 4)

/-- readSessionId: skipped when the event is unset or in
{StartConnection, FinishConnection, ConnectionStarted, ConnectionFailed,
ConnectionFinished}; otherwise a 4-byte length then, when the length is
non-zero, that many bytes. -/
def readSessionId (msg : Message) (data : List Nat) (offset : Nat) :
    Except DecodeError (Message × Nat) :=
  match msg.event with
  | none => .ok (msg, offset)
  | some e =>
    if e = EventType.StartConnection ∨ e = EventType.FinishConnection ∨
        e = EventType.ConnectionStarted ∨ e = EventType.ConnectionFailed ∨
        e = EventType.ConnectionFinished then
      .ok (msg, offset)
    else if offset + 4 > data.length then
      .error .insufficientSessionIdSize
    else
      let size := getU32 data offset
      if 0 < size then
        if offset + 4 + size > data.length then .error .insufficientSessionId
        else
          .ok ({ msg with sessionId := some (sliceList data (offset + 4) size) },
            offset + 4 + size)
      else .ok (msg, offset + 4)

/-- readConnectId: read only when the event is one of
ConnectionStarted/ConnectionFailed/ConnectionFinished; a 4-byte length
then, when non-zero, that many bytes. -/
def readConnectId (msg : Message) (data : List Nat) (offset : Nat) :
    Except DecodeError (Message × Nat) :=
  match msg.event with
  | none => .ok (msg, offset)
  | some e =>
    if e = EventType.ConnectionStarted ∨ e = EventType.ConnectionFailed ∨
        e = EventType.ConnectionFinished then
      if offset + 4 > data.length then
        .error .insufficientConnectIdSize
      else
        let size := getU32 data offset
        if 0 < size then
          if offset + 4 + size > data.length then .error .insufficientConnectId
          else
            .ok ({ msg with connectId := some (sliceList data (offset + 4) size) },
              offset + 4 + size)
        else .ok (msg, offset + 4)
    else .ok (msg, offset)

/-- readSequence: 4-byte signed big-endian sequence. -/
def readSequence (msg : Message) (data : List Nat) (offset : Nat) :
    Except DecodeError (Message × Nat) :=
  if offset + 4 > data.length then .error .insufficientSequence
  else .ok ({ msg with sequence := some (getI32 data offset) }, offset + 4)

/-- readErrorCode: 4-byte unsigned big-endian error code. -/
def readErrorCode (msg : Message) (data : List Nat) (offset : Nat) :
    Except DecodeError (Message × Nat) :=
  if offset + 4 > data.length then .error .insufficientErrorCode
  else .ok ({ msg with errorCode := some (getU32 data offset) }, offset + 4)

/-- readPayload: 4-byte length then, when non-zero, that many payload
bytes (a zero length leaves the payload at its initial empty value). -/
def readPayload (msg : Message) (data : List Nat) (offset : Nat) :
    Except DecodeError (Message × Nat) :=
  if offset + 4 > data.length then .error .insufficientPayloadSize
  else
    let size := getU32 data offset
    if 0 < size then
      if offset + 4 + size > data.length then .error .insufficientPayload
      else
        .ok ({ msg with payload := sliceList data (offset + 4) size },
          offset + 4 + size)
    else .ok (msg, offset + 4)

/-- Tags for the reader functions pushed by `getReaders`. -/
inductive Reader where
  | rEvent
  | rSessionId
  | rConnectId
  | rSequence
  | rErrorCode
  | rPayload
  deriving DecidableEq, Repr

def applyReader : Reader → Message → List Nat → Nat → Except DecodeError (Message × Nat)
  | .rEvent, msg, data, offset => readEvent msg data offset
  | .rSessionId, msg, data, offset => readSessionId msg data offset
  | .rConnectId, msg, data, offset => readConnectId msg data offset
  | .rSequence, msg, data, offset => readSequence msg data offset
  | .rErrorCode, msg, data, offset => readErrorCode msg data offset
  | .rPayload, msg, data, offset => readPayload msg data offset

/-- getReaders, as a function of the parsed kind and flag: first, by
kind, the sequence reader (content kinds with PositiveSeq/NegativeSeq)
or the errorCode reader (Error kind), failing on any other kind; then
the event/sessionId/connectId readers when `flag == WithEvent`; finally
the payload reader.  Note the kind dispatch comes FIRST here, the
reverse of `getWriters`. -/
def getReaders (t f : Nat) : Except DecodeError (List Reader) :=
  let tail : List Reader :=
    (if f = MsgTypeFlagBits.WithEvent then [.rEvent, .rSessionId, .rConnectId] else []) ++
      [.rPayload]
  if isContent t then
    .ok ((if f = MsgTypeFlagBits.PositiveSeq ∨ f = MsgTypeFlagBits.NegativeSeq
      then [.rSequence] else []) ++ tail)
  else if t = MsgType.Error then
    .ok ([.rErrorCode] ++ tail)
  else
    .error (.unsupportedMessageType t)

/-- Run a reader list in order, threading the message and the offset. -/
def runReaders : List Reader → Message → List Nat → Nat →
    Except DecodeError (Message × Nat)
  | [], msg, _, offset => .ok (msg, offset)
  | r :: rs, msg, data, offset =>
    match applyReader r msg data offset with
    | .error e => .error e
    | .ok (msg', offset') => runReaders rs msg' data offset'

/-- The message as initialized by `unmarshalMessage` from the three
packed header bytes, before any reader runs. -/
def decodeInit (data : List Nat) : Message :=
  { version := data.getD 0 0 >>> 4
    headerSize := data.getD 0 0 &&& 15
    type := data.getD 1 0 >>> 4
    flag := data.getD 1 0 &&& 15
    serialization := data.getD 2 0 >>> 4
    compression := data.getD 2 0 &&& 15
    payload := [] }

/-- unmarshalMessage: fail on fewer than 3 bytes, parse the packed
header, skip to `4 * headerSize`, then run the readers. -/
def unmarshalMessage (data : List Nat) : Except DecodeError Message :=
  if data.length < 3 then .error (.frameTooShort data.length)
  else
    match getReaders (decodeInit data).type (decodeInit data).flag with
    | .error e => .error e
    | .ok readers =>
      match runReaders readers (decodeInit data) data
          (4 * (decodeInit data).headerSize) with
      | .error e => .error e
      | .ok (msg', _) => .ok msg'

/-! ## Connection demultiplexer

Per-connection state of `setupMessageHandler`/`ReceiveMessage`: the
FIFO queue of undelivered messages (`messageQueues`) and the FIFO list
of pending waiter callbacks (`messageCallbacks`), the latter modelled by
waiter identifiers. -/

structure DemuxState where
  queue : List Message
  callbacks : List Nat
  deriving DecidableEq, Repr

/-- Observable outcome of one demultiplexer operation. -/
inductive DemuxEvent where
  | queued (msg : Message)
  | delivered (w : Nat) (msg : Message)
  | popped (msg : Message)
  | registered (w : Nat)
  deriving DecidableEq, Repr

/-- The body of the `ws.on('message', ...)` handler after a successful
decode: deliver to the oldest waiting callback if any, else append the
message to the queue. -/
def onFrameArrived (s : DemuxState) (msg : Message) : DemuxState × DemuxEvent :=
  match s.callbacks with
  | w :: rest => ({ s with callbacks := rest }, .delivered w msg)
  | [] => ({ s with queue := s.queue ++ [msg] }, .queued msg)

/-- `ReceiveMessage`: pop the oldest queued message if any, else
register a fresh waiter callback at the end of the callback list. -/
def receiveMessage (s : DemuxState) (fresh : Nat) : DemuxState × DemuxEvent :=
  match s.queue with
  | msg :: rest => ({ s with queue := rest }, .popped msg)
  | [] => ({ s with callbacks := s.callbacks ++ [fresh] }, .registered fresh)

/-- States of one connection reachable from the initial empty state by
any interleaving of frame arrivals and `ReceiveMessage` calls. -/
inductive ReachableDemux : DemuxState → Prop where
  | init : ReachableDemux ⟨[], []⟩
  | frame (s : DemuxState) (msg : Message) :
      ReachableDemux s → ReachableDemux (onFrameArrived s msg).1
  | recv (s : DemuxState) (fresh : Nat) :
      ReachableDemux s → ReachableDemux (receiveMessage s fresh).1

/-- "Exactly one of {queue non-empty, waiter list non-empty}", as the
claim states the demultiplexer invariant. -/
def exactlyOneNonEmpty (s : DemuxState) : Prop :=
  (s.queue ≠ [] ∧ s.callbacks = []) ∨ (s.queue = [] ∧ s.callbacks ≠ [])

/-! ## Session protocol helpers -/

/-- Errors of `WaitForEvent` and of the streaming-consumption loop.
`unexpectedMessage` carries the observed kind and the observed event
rendered as the code renders it (`msg.event || 0`);
`unexpectedMessageKind` is the loop's `default:` throw; `emptyResult`
is the `no audio received` throw; `starved` models a receive that never
resolves because no further frame arrives. -/
inductive SessionError where
  | starved
  | unexpectedMessage (t : Nat) (e : Int)
  | unexpectedMessageKind (t : Nat)
  | emptyResult
  deriving DecidableEq, Repr

/-- `WaitForEvent(ws, msgType, eventType)` against the stream of
messages that `ReceiveMessage` would deliver in order: one receive,
then the kind/event comparison of the source
(`msg.type !== msgType || msg.event !== eventType`). -/
def WaitForEvent (arrivals : List Message) (msgType : Nat) (eventType : Int) :
    Except SessionError (Message × List Message) :=
  match arrivals with
  | [] => .error .starved
  | msg :: rest =>
    if msg.type = msgType ∧ msg.event = some eventType then .ok (msg, rest)
    else .error (.unexpectedMessage msg.type (msg.event.getD 0))

/-- The streaming-consumption `while (true)` loop body of
`unidirectional_stream.ts` (and `TTSService.synthesizeSingle`), against
the stream of messages `ReceiveMessage` would deliver in order:
FullServerResponse is a status frame (and terminates the loop when its
event is SessionFinished), AudioOnlyServer appends its payload to the
chunk list, and any other kind throws.  Returns the accumulated chunks
and the messages never received. -/
def streamLoop (arrivals : List Message) (acc : List (List Nat)) :
    Except SessionError (List (List Nat) × List Message) :=
  match arrivals with
  | [] => .error .starved
  | msg :: rest =>
    if msg.type = MsgType.FullServerResponse then
      if msg.event = some EventType.SessionFinished then .ok (acc, rest)
      else streamLoop rest acc
    else if msg.type = MsgType.AudioOnlyServer then
      streamLoop rest (acc ++ [msg.payload])
    else .error (.unexpectedMessageKind msg.type)

/-- The loop followed by the `totalAudio.length === 0` check and the
concatenation of the accumulated chunks. -/
def collectAudio (arrivals : List Message) :
    Except SessionError (List Nat × List Message) :=
  match streamLoop arrivals [] with
  | .error e => .error e
  | .ok (chunks, rest) =>
    if chunks.isEmpty then .error .emptyResult
    else .ok (chunks.flatten, rest)

/-! ## Predicates for the claims -/

/-- The six known message kinds (the encoder and decoder dispatch
succeed exactly on these). -/
def validType (t : Nat) : Bool := isContent t || t == MsgType.Error

/-- The connection-scope event set of the data model
({StartConnection, FinishConnection, ConnectionStarted,
ConnectionFailed}), outside of which `sessionId` is applicable. -/
def connScope (e : Int) : Bool :=
  e == EventType.StartConnection || e == EventType.FinishConnection ||
    e == EventType.ConnectionStarted || e == EventType.ConnectionFailed

/-- The claim's field-presence rules keyed by (kind, flag, event):
`event` present iff `flag == WithEvent`; `sessionId` present iff
`flag == WithEvent` and the event is outside the connection-scope set;
`sequence` present iff the kind is content-bearing and the flag is
PositiveSeq/NegativeSeq; `errorCode` present iff the kind is Error.
`connectId` is decode-only, hence unset. -/
def presenceOK (m : Message) : Prop :=
  (m.event.isSome = true ↔ m.flag = MsgTypeFlagBits.WithEvent) ∧
  (m.sessionId.isSome = true ↔
    (m.flag = MsgTypeFlagBits.WithEvent ∧ m.event.any (fun e => !connScope e) = true)) ∧
  (m.sequence.isSome = true ↔
    (isContent m.type = true ∧
      (m.flag = MsgTypeFlagBits.PositiveSeq ∨ m.flag = MsgTypeFlagBits.NegativeSeq))) ∧
  (m.errorCode.isSome = true ↔ m.type = MsgType.Error) ∧
  m.connectId = none

/-- 32-bit signed range. -/
def i32Range (e : Int) : Bool :=
  decide (-(2 ^ 31) ≤ e) && decide (e < 2 ^ 31)

/-- Well-formed field values for a message built per the data model:
4-bit header fields with a known kind and a non-zero header size,
byte-valued string/payload contents of 32-bit-expressible length, and
32-bit numeric fields. -/
def wfM (m : Message) : Prop :=
  m.version < 16 ∧ 1 ≤ m.headerSize ∧ m.headerSize < 16 ∧
  validType m.type = true ∧ m.flag < 16 ∧
  m.serialization < 16 ∧ m.compression < 16 ∧
  m.event.all i32Range = true ∧
  m.sessionId.all (fun s => s.all (· < 256) && decide (s.length < 2 ^ 32)) = true ∧
  m.sequence.all i32Range = true ∧
  m.errorCode.all (fun c => decide (c < 2 ^ 32)) = true ∧
  m.payload.all (· < 256) = true ∧ m.payload.length < 2 ^ 32

/-- The extra conditions (forced by the counterexample to the round-trip
claim) under which encode-then-decode does reproduce the message: the
kind/flag pair must not be Error-with-event, the event must not be one
of ConnectionStarted/ConnectionFailed/ConnectionFinished, and an
applicable sessionId must be non-empty. -/
def rtOK (m : Message) : Prop :=
  ¬(m.type = MsgType.Error ∧ m.flag = MsgTypeFlagBits.WithEvent) ∧
  m.event.all (fun e =>
    !(e == EventType.ConnectionStarted || e == EventType.ConnectionFailed ||
      e == EventType.ConnectionFinished)) = true ∧
  m.sessionId.all (fun s => !s.isEmpty) = true

instance (m : Message) : Decidable (presenceOK m) := by
  unfold presenceOK; infer_instance

instance (m : Message) : Decidable (wfM m) := by
  unfold wfM; infer_instance

instance (m : Message) : Decidable (rtOK m) := by
  unfold rtOK; infer_instance

/-- Whether the bytes of writer `w` appear in the frame `marshalMessage`
builds for `m`: the writer is in the `getWriters` list and produces a
(non-null) buffer. -/
def writtenB (m : Message) (w : Writer) : Bool :=
  match getWriters m with
  | .error _ => false
  | .ok ws => ws.contains w && ((applyWriter w m).isSome)

/-- The fields applicable under (kind, flag, event) are all set (the
amended form of the presence-by-applicability claim quantifies over
these messages). -/
def setOK (m : Message) : Prop :=
  (m.flag = MsgTypeFlagBits.WithEvent → m.event.isSome = true) ∧
  (isContent m.type = true →
    (m.flag = MsgTypeFlagBits.PositiveSeq ∨ m.flag = MsgTypeFlagBits.NegativeSeq) →
    m.sequence.isSome = true) ∧
  (m.type = MsgType.Error → m.errorCode.isSome = true)

/-- Field presence in the encoded frame as a function of the
(kind, flag, event) triple alone. -/
instance (m : Message) : Decidable (setOK m) := by
  unfold setOK; infer_instance

def presenceRule (t f : Nat) (ev : Option Int) : Writer → Bool
  | .wEvent => validType t && (f == MsgTypeFlagBits.WithEvent)
  | .wSessionId => validType t && (f == MsgTypeFlagBits.WithEvent) &&
      ev.any (fun e => !connScope e)
  | .wSequence => isContent t &&
      (f == MsgTypeFlagBits.PositiveSeq || f == MsgTypeFlagBits.NegativeSeq)
  | .wErrorCode => t == MsgType.Error
  | .wPayload => validType t

/-! ## Byte-level lemmas -/

lemma packByte_unpack_aux :
    ∀ hi, hi < 16 → ∀ lo, lo < 16 →
      packByte hi lo >>> 4 = hi ∧ packByte hi lo &&& 15 = lo ∧ packByte hi lo < 256 := by
  decide

lemma packByte_shiftRight {hi lo : Nat} (h1 : hi < 16) (h2 : lo < 16) :
    packByte hi lo >>> 4 = hi :=
  (packByte_unpack_aux hi h1 lo h2).1

lemma packByte_land {hi lo : Nat} (h1 : hi < 16) (h2 : lo < 16) :
    packByte hi lo &&& 15 = lo :=
  (packByte_unpack_aux hi h1 lo h2).2.1

@[simp] lemma u32be_length (n : Nat) : (u32be n).length = 4 := rfl

@[simp] lemma i32be_length (e : Int) : (i32be e).length = 4 := rfl

lemma getD_seg (pre xs rest : List Nat) (i : Nat) (h : i < xs.length) :
    (pre ++ xs ++ rest).getD (pre.length + i) 0 = xs.getD i 0 := by
  rw [List.append_assoc, List.getD_append_right _ _ _ _ (Nat.le_add_right _ _),
    Nat.add_sub_cancel_left, List.getD_append _ _ _ _ h]

lemma getU32_at (pre rest : List Nat) (n : Nat) (hn : n < 2 ^ 32) :
    getU32 (pre ++ u32be n ++ rest) pre.length = n := by
  have h0 := getD_seg pre (u32be n) rest 0 (by simp)
  have h1 := getD_seg pre (u32be n) rest 1 (by simp)
  have h2 := getD_seg pre (u32be n) rest 2 (by simp)
  have h3 := getD_seg pre (u32be n) rest 3 (by simp)
  rw [Nat.add_zero] at h0
  unfold getU32
  rw [h0, h1, h2, h3]
  show n / 2 ^ 24 % 256 * 2 ^ 24 + n / 2 ^ 16 % 256 * 2 ^ 16 +
    n / 2 ^ 8 % 256 * 2 ^ 8 + n % 256 = n
  omega

lemma i32_toNat_lt (e : Int) : (e % 2 ^ 32).toNat < 2 ^ 32 := by omega

lemma getI32_at (pre rest : List Nat) (e : Int) (he : i32Range e = true) :
    getI32 (pre ++ i32be e ++ rest) pre.length = e := by
  simp only [i32Range, Bool.and_eq_true, decide_eq_true_eq] at he
  unfold getI32 i32be
  rw [getU32_at pre rest _ (by omega)]
  show (if (e % 2 ^ 32).toNat < 2 ^ 31 then ((e % 2 ^ 32).toNat : Int)
    else ((e % 2 ^ 32).toNat : Int) - 2 ^ 32) = e
  split <;> omega

lemma slice_seg (pre xs rest : List Nat) :
    sliceList (pre ++ xs ++ rest) pre.length xs.length = xs := by
  unfold sliceList
  rw [List.append_assoc, List.drop_left, List.take_left]

lemma length_seg (pre xs rest : List Nat) :
    (pre ++ xs ++ rest).length = pre.length + xs.length + rest.length := by
  simp
  omega

@[simp] lemma baseHeader_length (m : Message) :
    (baseHeader m).length = 4 * m.headerSize := by
  simp [baseHeader]

lemma baseHeader_eq (m : Message) (h : 1 ≤ m.headerSize) :
    baseHeader m =
      [packByte m.version m.headerSize, packByte m.type m.flag,
        packByte m.serialization m.compression] ++
        List.replicate (4 * m.headerSize - 3) 0 := by
  obtain ⟨k, hk⟩ : ∃ k, m.headerSize = k + 1 := ⟨m.headerSize - 1, by omega⟩
  unfold baseHeader
  rw [hk]
  have h4 : 4 * (k + 1) = (4 * k + 1) + 1 + 1 + 1 := by ring
  have h3 : 4 * (k + 1) - 3 = 4 * k + 1 := by omega
  rw [h3, h4, List.replicate_succ, List.replicate_succ, List.replicate_succ]
  rfl

/-! ## Reader consumption lemmas: each reader, run at the start of its
own frame segment, consumes exactly that segment. -/

lemma readEvent_at (m : Message) (data pre rest : List Nat) (e : Int) (offset : Nat)
    (hd : data = pre ++ i32be e ++ rest) (ho : offset = pre.length)
    (he : i32Range e = true) :
    readEvent m data offset = .ok ({ m with event := some e }, offset + 4) := by
  subst hd ho
  unfold readEvent
  rw [if_neg (by simp only [length_seg, List.length_append, i32be_length, u32be_length]; omega), getI32_at pre rest e he]

lemma readSequence_at (m : Message) (data pre rest : List Nat) (e : Int) (offset : Nat)
    (hd : data = pre ++ i32be e ++ rest) (ho : offset = pre.length)
    (he : i32Range e = true) :
    readSequence m data offset = .ok ({ m with sequence := some e }, offset + 4) := by
  subst hd ho
  unfold readSequence
  rw [if_neg (by simp only [length_seg, List.length_append, i32be_length, u32be_length]; omega), getI32_at pre rest e he]

lemma readErrorCode_at (m : Message) (data pre rest : List Nat) (c : Nat) (offset : Nat)
    (hd : data = pre ++ u32be c ++ rest) (ho : offset = pre.length)
    (hc : c < 2 ^ 32) :
    readErrorCode m data offset = .ok ({ m with errorCode := some c }, offset + 4) := by
  subst hd ho
  unfold readErrorCode
  rw [if_neg (by simp only [length_seg, List.length_append, i32be_length, u32be_length]; omega), getU32_at pre rest c hc]

lemma readSessionId_skip (m : Message) (data : List Nat) (offset : Nat) (e : Int)
    (he : m.event = some e)
    (hskip : e = EventType.StartConnection ∨ e = EventType.FinishConnection ∨
      e = EventType.ConnectionStarted ∨ e = EventType.ConnectionFailed ∨
      e = EventType.ConnectionFinished) :
    readSessionId m data offset = .ok (m, offset) := by
  unfold readSessionId
  rw [he]
  exact if_pos hskip

lemma readSessionId_at (m : Message) (data pre rest s : List Nat) (e : Int) (offset : Nat)
    (hd : data = pre ++ (u32be s.length ++ s) ++ rest) (ho : offset = pre.length)
    (he : m.event = some e)
    (hns : ¬(e = EventType.StartConnection ∨ e = EventType.FinishConnection ∨
      e = EventType.ConnectionStarted ∨ e = EventType.ConnectionFailed ∨
      e = EventType.ConnectionFinished))
    (hlen : s.length < 2 ^ 32) (hne : s ≠ []) :
    readSessionId m data offset =
      .ok ({ m with sessionId := some s }, offset + 4 + s.length) := by
  subst hd ho
  have hpos : 0 < s.length := List.length_pos.mpr hne
  have hdata : pre ++ (u32be s.length ++ s) ++ rest =
      pre ++ u32be s.length ++ (s ++ rest) := by simp
  have hsize : getU32 (pre ++ (u32be s.length ++ s) ++ rest) pre.length = s.length := by
    rw [hdata]; exact getU32_at pre (s ++ rest) s.length hlen
  have hslice : sliceList (pre ++ (u32be s.length ++ s) ++ rest) (pre.length + 4) s.length
      = s := by
    have : pre ++ (u32be s.length ++ s) ++ rest =
        (pre ++ u32be s.length) ++ s ++ rest := by simp
    rw [this]
    have hl : pre.length + 4 = (pre ++ u32be s.length).length := by simp
    rw [hl]
    exact slice_seg (pre ++ u32be s.length) s rest
  unfold readSessionId
  rw [he]
  dsimp only
  rw [if_neg hns, if_neg (by simp only [length_seg, List.length_append, i32be_length, u32be_length]; omega)]
  simp only [hsize, if_pos hpos]
  rw [if_neg (by simp only [length_seg, List.length_append, i32be_length, u32be_length]; omega), hslice]

lemma readSessionId_zero (m : Message) (data pre rest : List Nat) (e : Int) (offset : Nat)
    (hd : data = pre ++ u32be 0 ++ rest) (ho : offset = pre.length)
    (he : m.event = some e)
    (hns : ¬(e = EventType.StartConnection ∨ e = EventType.FinishConnection ∨
      e = EventType.ConnectionStarted ∨ e = EventType.ConnectionFailed ∨
      e = EventType.ConnectionFinished)) :
    readSessionId m data offset = .ok (m, offset + 4) := by
  subst hd ho
  have hsize : getU32 (pre ++ u32be 0 ++ rest) pre.length = 0 :=
    getU32_at pre rest 0 (by norm_num)
  unfold readSessionId
  rw [he]
  dsimp only
  rw [if_neg hns, if_neg (by simp only [length_seg, List.length_append, i32be_length, u32be_length]; omega)]
  simp only [hsize]
  rfl

lemma readConnectId_skip (m : Message) (data : List Nat) (offset : Nat) (e : Int)
    (he : m.event = some e)
    (hns : ¬(e = EventType.ConnectionStarted ∨ e = EventType.ConnectionFailed ∨
      e = EventType.ConnectionFinished)) :
    readConnectId m data offset = .ok (m, offset) := by
  unfold readConnectId
  rw [he]
  exact if_neg hns

lemma readConnectId_zero (m : Message) (data pre rest : List Nat) (e : Int) (offset : Nat)
    (hd : data = pre ++ u32be 0 ++ rest) (ho : offset = pre.length)
    (he : m.event = some e)
    (hin : e = EventType.ConnectionStarted ∨ e = EventType.ConnectionFailed ∨
      e = EventType.ConnectionFinished) :
    readConnectId m data offset = .ok (m, offset + 4) := by
  subst hd ho
  have hsize : getU32 (pre ++ u32be 0 ++ rest) pre.length = 0 :=
    getU32_at pre rest 0 (by norm_num)
  unfold readConnectId
  rw [he]
  dsimp only
  rw [if_pos hin, if_neg (by simp only [length_seg, List.length_append, i32be_length, u32be_length]; omega)]
  simp only [hsize]
  rfl

lemma readPayload_last (m : Message) (data pre p : List Nat) (offset : Nat)
    (hd : data = pre ++ u32be p.length ++ p) (ho : offset = pre.length)
    (hm : m.payload = []) (hlen : p.length < 2 ^ 32) :
    readPayload m data offset = .ok ({ m with payload := p }, data.length) := by
  subst hd ho
  have hsize : getU32 (pre ++ u32be p.length ++ p) pre.length = p.length :=
    getU32_at pre p p.length hlen
  have hlength : (pre ++ u32be p.length ++ p).length = pre.length + 4 + p.length := by
    rw [length_seg]; simp
  unfold readPayload
  rw [if_neg (by omega)]
  simp only [hsize]
  rcases Nat.eq_zero_or_pos p.length with hz | hpos
  · have hpnil : p = [] := List.length_eq_zero.mp hz
    rw [if_neg (by omega)]
    have : ({ m with payload := p } : Message) = m := by
      cases m; simp_all
    rw [this, hlength, hz]
  · have hslice : sliceList (pre ++ u32be p.length ++ p) (pre.length + 4) p.length = p := by
      have : pre ++ u32be p.length ++ p = (pre ++ u32be p.length) ++ p ++ [] := by simp
      rw [this]
      have hl : pre.length + 4 = (pre ++ u32be p.length).length := by simp
      rw [hl]
      exact slice_seg (pre ++ u32be p.length) p []
    rw [if_pos hpos, if_neg (by omega), hslice, hlength]

lemma readPayload_zero (m : Message) (data pre rest : List Nat) (offset : Nat)
    (hd : data = pre ++ u32be 0 ++ rest) (ho : offset = pre.length) :
    readPayload m data offset = .ok (m, offset + 4) := by
  subst hd ho
  have hsize : getU32 (pre ++ u32be 0 ++ rest) pre.length = 0 :=
    getU32_at pre rest 0 (by norm_num)
  unfold readPayload
  rw [if_neg (by simp only [length_seg, List.length_append, i32be_length, u32be_length]; omega)]
  simp only [hsize]
  rfl

/-! ## Decode-of-encode machinery -/

/-- The header-only message: what `decodeInit` recovers on a frame whose
header was packed from `m`'s fields. -/
def initOf (m : Message) : Message :=
  { version := m.version, headerSize := m.headerSize, type := m.type, flag := m.flag,
    serialization := m.serialization, compression := m.compression, payload := [] }

lemma validType_cases {t : Nat} (h : validType t = true) :
    isContent t = true ∨ t = MsgType.Error := by
  simpa [validType] using h

lemma isContent_vals {t : Nat} (h : isContent t = true) :
    t = 2 ∨ t = 11 ∨ t = 12 ∨ t = 1 ∨ t = 9 := by
  simp [isContent, MsgType.AudioOnlyClient, MsgType.AudioOnlyServer,
    MsgType.FrontEndResultServer, MsgType.FullClientRequest,
    MsgType.FullServerResponse] at h
  tauto

lemma validType_lt {t : Nat} (h : validType t = true) : t < 16 := by
  rcases validType_cases h with h | h
  · rcases isContent_vals h with h | h | h | h | h <;> omega
  · rw [h]; norm_num [MsgType.Error]

lemma runReaders_step {r : Reader} {rs : List Reader} {m : Message} {data : List Nat}
    {o : Nat} {m' : Message} {o' : Nat}
    (h : applyReader r m data o = .ok (m', o')) (rest : List Reader) (hrs : rs = rest) :
    runReaders (r :: rs) m data o = runReaders rest m' data o' := by
  subst hrs
  conv_lhs => rw [runReaders, h]

lemma marshal_shape {m : Message} {frame : List Nat}
    (h : marshalMessage m = .ok frame) : ∃ body, frame = baseHeader m ++ body := by
  unfold marshalMessage at h
  cases hw : getWriters m with
  | error e => rw [hw] at h; exact absurd h (by simp)
  | ok ws =>
    rw [hw] at h
    simp only [Except.ok.injEq] at h
    exact ⟨_, h.symm⟩

lemma decodeInit_header (m : Message) (body : List Nat)
    (h1 : 1 ≤ m.headerSize) (hv : m.version < 16) (hh : m.headerSize < 16)
    (ht : m.type < 16) (hf : m.flag < 16) (hs : m.serialization < 16)
    (hc : m.compression < 16) :
    decodeInit (baseHeader m ++ body) = initOf m := by
  rw [baseHeader_eq m h1]
  unfold decodeInit initOf
  simp only [List.cons_append, List.getD_cons_zero, List.getD_cons_succ]
  rw [packByte_shiftRight hv hh, packByte_land hv hh,
    packByte_shiftRight ht hf, packByte_land ht hf,
    packByte_shiftRight hs hc, packByte_land hs hc]

/-! ### Writer/reader lists per message shape -/

lemma getWriters_we_content {m : Message} (hf4 : m.flag = MsgTypeFlagBits.WithEvent)
    (hct : isContent m.type = true) :
    getWriters m = .ok [.wEvent, .wSessionId, .wPayload] := by
  simp [getWriters, hf4, hct, MsgTypeFlagBits.WithEvent, MsgTypeFlagBits.PositiveSeq,
    MsgTypeFlagBits.NegativeSeq]

lemma getReaders_we_content {t f : Nat} (hf4 : f = MsgTypeFlagBits.WithEvent)
    (hct : isContent t = true) :
    getReaders t f = .ok [.rEvent, .rSessionId, .rConnectId, .rPayload] := by
  simp [getReaders, hf4, hct, MsgTypeFlagBits.WithEvent, MsgTypeFlagBits.PositiveSeq,
    MsgTypeFlagBits.NegativeSeq]

lemma getWriters_seq_content {m : Message}
    (hf : m.flag = MsgTypeFlagBits.PositiveSeq ∨ m.flag = MsgTypeFlagBits.NegativeSeq)
    (hct : isContent m.type = true) :
    getWriters m = .ok [.wSequence, .wPayload] := by
  have hne : m.flag ≠ MsgTypeFlagBits.WithEvent := by
    rcases hf with h | h <;> rw [h] <;> decide
  simp [getWriters, hne, hf, hct]

lemma getReaders_seq_content {t f : Nat}
    (hf : f = MsgTypeFlagBits.PositiveSeq ∨ f = MsgTypeFlagBits.NegativeSeq)
    (hct : isContent t = true) :
    getReaders t f = .ok [.rSequence, .rPayload] := by
  have hne : f ≠ MsgTypeFlagBits.WithEvent := by
    rcases hf with h | h <;> rw [h] <;> decide
  simp [getReaders, hne, hf, hct]

lemma getWriters_plain_content {m : Message}
    (hne : m.flag ≠ MsgTypeFlagBits.WithEvent)
    (hnf : ¬(m.flag = MsgTypeFlagBits.PositiveSeq ∨ m.flag = MsgTypeFlagBits.NegativeSeq))
    (hct : isContent m.type = true) :
    getWriters m = .ok [.wPayload] := by
  simp [getWriters, hne, hnf, hct]

lemma getReaders_plain_content {t f : Nat}
    (hne : f ≠ MsgTypeFlagBits.WithEvent)
    (hnf : ¬(f = MsgTypeFlagBits.PositiveSeq ∨ f = MsgTypeFlagBits.NegativeSeq))
    (hct : isContent t = true) :
    getReaders t f = .ok [.rPayload] := by
  simp [getReaders, hne, hnf, hct]

lemma getWriters_err {m : Message}
    (hne : m.flag ≠ MsgTypeFlagBits.WithEvent) (ht : m.type = MsgType.Error) :
    getWriters m = .ok [.wErrorCode, .wPayload] := by
  have hct : isContent MsgType.Error = false := by decide
  simp [getWriters, hne, ht, hct]

lemma getReaders_err {t f : Nat}
    (hne : f ≠ MsgTypeFlagBits.WithEvent) (ht : t = MsgType.Error) :
    getReaders t f = .ok [.rErrorCode, .rPayload] := by
  have hct : isContent MsgType.Error = false := by decide
  simp [getReaders, hne, ht, hct]

lemma unmarshal_eq_of_run {frame : List Nat} {m0 mfin : Message} {rs : List Reader}
    {off : Nat}
    (h3 : ¬ frame.length < 3) (hinit : decodeInit frame = m0)
    (hrs : getReaders m0.type m0.flag = .ok rs)
    (hrun : runReaders rs m0 frame (4 * m0.headerSize) = .ok (mfin, off)) :
    unmarshalMessage frame = .ok mfin := by
  unfold unmarshalMessage
  rw [if_neg h3]
  simp only [hinit, hrs, hrun]

/-! ### Round-trip case lemmas -/

/-- Frame shape: WithEvent flag, session-scoped event with sessionId. -/
def frameWES (m : Message) (e : Int) (s : List Nat) : List Nat :=
  baseHeader m ++ i32be e ++ (u32be s.length ++ s) ++
    (u32be m.payload.length ++ m.payload)

lemma rt_case_we_sid (m : Message) (e : Int) (s : List Nat)
    (hf4 : m.flag = MsgTypeFlagBits.WithEvent)
    (hct : isContent m.type = true)
    (he : m.event = some e)
    (hs : m.sessionId = some s)
    (hseq : m.sequence = none) (hec : m.errorCode = none) (hcid : m.connectId = none)
    (h1 : 1 ≤ m.headerSize) (hv : m.version < 16) (hh : m.headerSize < 16)
    (hfl : m.flag < 16) (hsr : m.serialization < 16) (hcp : m.compression < 16)
    (her : i32Range e = true)
    (hns : ¬(e = EventType.StartConnection ∨ e = EventType.FinishConnection ∨
      e = EventType.ConnectionStarted ∨ e = EventType.ConnectionFailed ∨
      e = EventType.ConnectionFinished))
    (hsl : s.length < 2 ^ 32) (hsne : s ≠ [])
    (hpl : m.payload.length < 2 ^ 32) :
    marshalMessage m = .ok (frameWES m e s) ∧
      ¬ (frameWES m e s).length < 3 ∧
      decodeInit (frameWES m e s) = initOf m ∧
      getReaders m.type m.flag = .ok [.rEvent, .rSessionId, .rConnectId, .rPayload] ∧
      runReaders [.rEvent, .rSessionId, .rConnectId, .rPayload] (initOf m) (frameWES m e s)
        (4 * m.headerSize) = .ok (m, (frameWES m e s).length) := by
  have ht16 : m.type < 16 := validType_lt (by simp [validType, hct])
  have hns4 : ¬(e = EventType.StartConnection ∨ e = EventType.FinishConnection ∨
      e = EventType.ConnectionStarted ∨ e = EventType.ConnectionFailed) := by tauto
  have hmod1 : s.length % 4294967296 = s.length := Nat.mod_eq_of_lt (by omega)
  have hmod2 : m.payload.length % 4294967296 = m.payload.length :=
    Nat.mod_eq_of_lt (by omega)
  refine ⟨?_, ?_, ?_, ?_, ?_⟩
  · unfold marshalMessage
    rw [getWriters_we_content hf4 hct]
    simp [applyWriter, writeEvent, writeSessionId, writePayload, he, hs, hns4,
      hmod1, hmod2, frameWES]
  · simp [frameWES, baseHeader_eq m h1]
  · have hsh : frameWES m e s = baseHeader m ++ (i32be e ++ ((u32be s.length ++ s) ++
        (u32be m.payload.length ++ m.payload))) := by simp [frameWES]
    rw [hsh]
    exact decodeInit_header m _ h1 hv hh ht16 hfl hsr hcp
  · exact getReaders_we_content hf4 hct
  · have s1 : applyReader .rEvent (initOf m) (frameWES m e s) (4 * m.headerSize) =
        .ok ({ initOf m with event := some e }, 4 * m.headerSize + 4) :=
      readEvent_at (initOf m) (frameWES m e s) (baseHeader m)
        ((u32be s.length ++ s) ++ (u32be m.payload.length ++ m.payload)) e
        (4 * m.headerSize) (by simp [frameWES]) (by simp) her
    have s2 : applyReader .rSessionId ({ initOf m with event := some e })
        (frameWES m e s) (4 * m.headerSize + 4) =
        .ok ({ initOf m with event := some e, sessionId := some s },
          4 * m.headerSize + 4 + 4 + s.length) :=
      readSessionId_at ({ initOf m with event := some e }) (frameWES m e s)
        (baseHeader m ++ i32be e) (u32be m.payload.length ++ m.payload) s e
        (4 * m.headerSize + 4) (by simp [frameWES]) (by simp) rfl hns hsl hsne
    have s3 : applyReader .rConnectId ({ initOf m with event := some e, sessionId := some s })
        (frameWES m e s) (4 * m.headerSize + 4 + 4 + s.length) =
        .ok ({ initOf m with event := some e, sessionId := some s },
          4 * m.headerSize + 4 + 4 + s.length) :=
      readConnectId_skip ({ initOf m with event := some e, sessionId := some s })
        (frameWES m e s) (4 * m.headerSize + 4 + 4 + s.length) e rfl (by tauto)
    have s4 : applyReader .rPayload ({ initOf m with event := some e, sessionId := some s })
        (frameWES m e s) (4 * m.headerSize + 4 + 4 + s.length) =
        .ok ({ initOf m with event := some e, sessionId := some s, payload := m.payload },
          (frameWES m e s).length) :=
      readPayload_last ({ initOf m with event := some e, sessionId := some s })
        (frameWES m e s) (baseHeader m ++ i32be e ++ (u32be s.length ++ s))
        m.payload (4 * m.headerSize + 4 + 4 + s.length) (by simp [frameWES])
        (by simp only [List.length_append, baseHeader_length, u32be_length,
          i32be_length]; omega) rfl hpl
    have hM4 : ({ initOf m with
        event := some e, sessionId := some s, payload := m.payload } : Message) = m :=
      Message.ext rfl rfl rfl rfl rfl rfl he.symm hs.symm hcid.symm hseq.symm hec.symm rfl
    rw [runReaders_step s1 _ rfl, runReaders_step s2 _ rfl, runReaders_step s3 _ rfl,
      runReaders_step s4 _ rfl, hM4]
    rfl

/-- Frame shape: WithEvent flag, connection-scoped event (no sessionId). -/
def frameWE (m : Message) (e : Int) : List Nat :=
  baseHeader m ++ i32be e ++ (u32be m.payload.length ++ m.payload)

lemma rt_case_we_noSid (m : Message) (e : Int)
    (hf4 : m.flag = MsgTypeFlagBits.WithEvent)
    (hct : isContent m.type = true)
    (he : m.event = some e)
    (hs : m.sessionId = none)
    (hseq : m.sequence = none) (hec : m.errorCode = none) (hcid : m.connectId = none)
    (h1 : 1 ≤ m.headerSize) (hv : m.version < 16) (hh : m.headerSize < 16)
    (hfl : m.flag < 16) (hsr : m.serialization < 16) (hcp : m.compression < 16)
    (her : i32Range e = true)
    (hin2 : e = EventType.StartConnection ∨ e = EventType.FinishConnection)
    (hpl : m.payload.length < 2 ^ 32) :
    marshalMessage m = .ok (frameWE m e) ∧
      ¬ (frameWE m e).length < 3 ∧
      decodeInit (frameWE m e) = initOf m ∧
      getReaders m.type m.flag = .ok [.rEvent, .rSessionId, .rConnectId, .rPayload] ∧
      runReaders [.rEvent, .rSessionId, .rConnectId, .rPayload] (initOf m) (frameWE m e)
        (4 * m.headerSize) = .ok (m, (frameWE m e).length) := by
  have ht16 : m.type < 16 := validType_lt (by simp [validType, hct])
  have hexc : e = EventType.StartConnection ∨ e = EventType.FinishConnection ∨
      e = EventType.ConnectionStarted ∨ e = EventType.ConnectionFailed := by tauto
  have hmod2 : m.payload.length % 4294967296 = m.payload.length :=
    Nat.mod_eq_of_lt (by omega)
  refine ⟨?_, ?_, ?_, ?_, ?_⟩
  · unfold marshalMessage
    rw [getWriters_we_content hf4 hct]
    simp [applyWriter, writeEvent, writeSessionId, writePayload, he, hexc,
      hmod2, frameWE]
  · simp [frameWE, baseHeader_eq m h1]
  · have hsh : frameWE m e = baseHeader m ++ (i32be e ++
        (u32be m.payload.length ++ m.payload)) := by simp [frameWE]
    rw [hsh]
    exact decodeInit_header m _ h1 hv hh ht16 hfl hsr hcp
  · exact getReaders_we_content hf4 hct
  · have s1 : applyReader .rEvent (initOf m) (frameWE m e) (4 * m.headerSize) =
        .ok ({ initOf m with event := some e }, 4 * m.headerSize + 4) :=
      readEvent_at (initOf m) (frameWE m e) (baseHeader m)
        (u32be m.payload.length ++ m.payload) e
        (4 * m.headerSize) (by simp [frameWE]) (by simp) her
    have s2 : applyReader .rSessionId ({ initOf m with event := some e })
        (frameWE m e) (4 * m.headerSize + 4) =
        .ok ({ initOf m with event := some e }, 4 * m.headerSize + 4) :=
      readSessionId_skip ({ initOf m with event := some e }) (frameWE m e)
        (4 * m.headerSize + 4) e rfl (by tauto)
    have s3 : applyReader .rConnectId ({ initOf m with event := some e })
        (frameWE m e) (4 * m.headerSize + 4) =
        .ok ({ initOf m with event := some e }, 4 * m.headerSize + 4) :=
      readConnectId_skip ({ initOf m with event := some e }) (frameWE m e)
        (4 * m.headerSize + 4) e rfl
        (by rcases hin2 with h | h <;> subst h <;> decide)
    have s4 : applyReader .rPayload ({ initOf m with event := some e })
        (frameWE m e) (4 * m.headerSize + 4) =
        .ok ({ initOf m with event := some e, payload := m.payload },
          (frameWE m e).length) :=
      readPayload_last ({ initOf m with event := some e })
        (frameWE m e) (baseHeader m ++ i32be e)
        m.payload (4 * m.headerSize + 4) (by simp [frameWE])
        (by simp only [List.length_append, baseHeader_length, u32be_length,
          i32be_length]) rfl hpl
    have hM4 : ({ initOf m with
        event := some e, payload := m.payload } : Message) = m :=
      Message.ext rfl rfl rfl rfl rfl rfl he.symm hs.symm hcid.symm hseq.symm hec.symm rfl
    rw [runReaders_step s1 _ rfl, runReaders_step s2 _ rfl, runReaders_step s3 _ rfl,
      runReaders_step s4 _ rfl, hM4]
    rfl

/-- Frame shape: sequenced content kind. -/
def frameSeq (m : Message) (n : Int) : List Nat :=
  baseHeader m ++ i32be n ++ (u32be m.payload.length ++ m.payload)

lemma rt_case_seq (m : Message) (n : Int)
    (hf : m.flag = MsgTypeFlagBits.PositiveSeq ∨ m.flag = MsgTypeFlagBits.NegativeSeq)
    (hct : isContent m.type = true)
    (he : m.event = none) (hs : m.sessionId = none)
    (hseq : m.sequence = some n) (hec : m.errorCode = none) (hcid : m.connectId = none)
    (h1 : 1 ≤ m.headerSize) (hv : m.version < 16) (hh : m.headerSize < 16)
    (hfl : m.flag < 16) (hsr : m.serialization < 16) (hcp : m.compression < 16)
    (hnr : i32Range n = true)
    (hpl : m.payload.length < 2 ^ 32) :
    marshalMessage m = .ok (frameSeq m n) ∧
      ¬ (frameSeq m n).length < 3 ∧
      decodeInit (frameSeq m n) = initOf m ∧
      getReaders m.type m.flag = .ok [.rSequence, .rPayload] ∧
      runReaders [.rSequence, .rPayload] (initOf m) (frameSeq m n)
        (4 * m.headerSize) = .ok (m, (frameSeq m n).length) := by
  have ht16 : m.type < 16 := validType_lt (by simp [validType, hct])
  have hmod2 : m.payload.length % 4294967296 = m.payload.length :=
    Nat.mod_eq_of_lt (by omega)
  refine ⟨?_, ?_, ?_, ?_, ?_⟩
  · unfold marshalMessage
    rw [getWriters_seq_content hf hct]
    simp [applyWriter, writeSequence, writePayload, hseq, hmod2, frameSeq]
  · simp [frameSeq, baseHeader_eq m h1]
  · have hsh : frameSeq m n = baseHeader m ++ (i32be n ++
        (u32be m.payload.length ++ m.payload)) := by simp [frameSeq]
    rw [hsh]
    exact decodeInit_header m _ h1 hv hh ht16 hfl hsr hcp
  · exact getReaders_seq_content hf hct
  · have s1 : applyReader .rSequence (initOf m) (frameSeq m n) (4 * m.headerSize) =
        .ok ({ initOf m with sequence := some n }, 4 * m.headerSize + 4) :=
      readSequence_at (initOf m) (frameSeq m n) (baseHeader m)
        (u32be m.payload.length ++ m.payload) n
        (4 * m.headerSize) (by simp [frameSeq]) (by simp) hnr
    have s4 : applyReader .rPayload ({ initOf m with sequence := some n })
        (frameSeq m n) (4 * m.headerSize + 4) =
        .ok ({ initOf m with sequence := some n, payload := m.payload },
          (frameSeq m n).length) :=
      readPayload_last ({ initOf m with sequence := some n })
        (frameSeq m n) (baseHeader m ++ i32be n)
        m.payload (4 * m.headerSize + 4) (by simp [frameSeq])
        (by simp only [List.length_append, baseHeader_length, u32be_length,
          i32be_length]) rfl hpl
    have hM4 : ({ initOf m with
        sequence := some n, payload := m.payload } : Message) = m :=
      Message.ext rfl rfl rfl rfl rfl rfl he.symm hs.symm hcid.symm hseq.symm hec.symm rfl
    rw [runReaders_step s1 _ rfl, runReaders_step s4 _ rfl, hM4]
    rfl

/-- Frame shape: plain content kind (no optional fields). -/
def framePlain (m : Message) : List Nat :=
  baseHeader m ++ (u32be m.payload.length ++ m.payload)

lemma rt_case_plain (m : Message)
    (hne : m.flag ≠ MsgTypeFlagBits.WithEvent)
    (hnf : ¬(m.flag = MsgTypeFlagBits.PositiveSeq ∨ m.flag = MsgTypeFlagBits.NegativeSeq))
    (hct : isContent m.type = true)
    (he : m.event = none) (hs : m.sessionId = none)
    (hseq : m.sequence = none) (hec : m.errorCode = none) (hcid : m.connectId = none)
    (h1 : 1 ≤ m.headerSize) (hv : m.version < 16) (hh : m.headerSize < 16)
    (hfl : m.flag < 16) (hsr : m.serialization < 16) (hcp : m.compression < 16)
    (hpl : m.payload.length < 2 ^ 32) :
    marshalMessage m = .ok (framePlain m) ∧
      ¬ (framePlain m).length < 3 ∧
      decodeInit (framePlain m) = initOf m ∧
      getReaders m.type m.flag = .ok [.rPayload] ∧
      runReaders [.rPayload] (initOf m) (framePlain m)
        (4 * m.headerSize) = .ok (m, (framePlain m).length) := by
  have ht16 : m.type < 16 := validType_lt (by simp [validType, hct])
  have hmod2 : m.payload.length % 4294967296 = m.payload.length :=
    Nat.mod_eq_of_lt (by omega)
  refine ⟨?_, ?_, ?_, ?_, ?_⟩
  · unfold marshalMessage
    rw [getWriters_plain_content hne hnf hct]
    simp [applyWriter, writePayload, hmod2, framePlain]
  · simp [framePlain, baseHeader_eq m h1]
  · exact decodeInit_header m _ h1 hv hh ht16 hfl hsr hcp
  · exact getReaders_plain_content hne hnf hct
  · have s4 : applyReader .rPayload (initOf m) (framePlain m) (4 * m.headerSize) =
        .ok ({ initOf m with payload := m.payload }, (framePlain m).length) :=
      readPayload_last (initOf m) (framePlain m) (baseHeader m)
        m.payload (4 * m.headerSize) (by simp [framePlain]) (by simp) rfl hpl
    have hM4 : ({ initOf m with payload := m.payload } : Message) = m :=
      Message.ext rfl rfl rfl rfl rfl rfl he.symm hs.symm hcid.symm hseq.symm hec.symm rfl
    rw [runReaders_step s4 _ rfl, hM4]
    rfl

/-- Frame shape: Error kind without WithEvent. -/
def frameErr (m : Message) (c : Nat) : List Nat :=
  baseHeader m ++ u32be c ++ (u32be m.payload.length ++ m.payload)

lemma rt_case_err (m : Message) (c : Nat)
    (hne : m.flag ≠ MsgTypeFlagBits.WithEvent)
    (ht : m.type = MsgType.Error)
    (he : m.event = none) (hs : m.sessionId = none)
    (hseq : m.sequence = none) (hec : m.errorCode = some c) (hcid : m.connectId = none)
    (h1 : 1 ≤ m.headerSize) (hv : m.version < 16) (hh : m.headerSize < 16)
    (hfl : m.flag < 16) (hsr : m.serialization < 16) (hcp : m.compression < 16)
    (hcr : c < 2 ^ 32)
    (hpl : m.payload.length < 2 ^ 32) :
    marshalMessage m = .ok (frameErr m c) ∧
      ¬ (frameErr m c).length < 3 ∧
      decodeInit (frameErr m c) = initOf m ∧
      getReaders m.type m.flag = .ok [.rErrorCode, .rPayload] ∧
      runReaders [.rErrorCode, .rPayload] (initOf m) (frameErr m c)
        (4 * m.headerSize) = .ok (m, (frameErr m c).length) := by
  have ht16 : m.type < 16 := validType_lt (by simp [validType, ht, MsgType.Error])
  have hmodc : c % 4294967296 = c := Nat.mod_eq_of_lt (by omega)
  have hmod2 : m.payload.length % 4294967296 = m.payload.length :=
    Nat.mod_eq_of_lt (by omega)
  refine ⟨?_, ?_, ?_, ?_, ?_⟩
  · unfold marshalMessage
    rw [getWriters_err hne ht]
    simp [applyWriter, writeErrorCode, writePayload, hec, hmodc, hmod2, frameErr]
  · simp [frameErr, baseHeader_eq m h1]
  · have hsh : frameErr m c = baseHeader m ++ (u32be c ++
        (u32be m.payload.length ++ m.payload)) := by simp [frameErr]
    rw [hsh]
    exact decodeInit_header m _ h1 hv hh ht16 hfl hsr hcp
  · exact getReaders_err hne ht
  · have s1 : applyReader .rErrorCode (initOf m) (frameErr m c) (4 * m.headerSize) =
        .ok ({ initOf m with errorCode := some c }, 4 * m.headerSize + 4) :=
      readErrorCode_at (initOf m) (frameErr m c) (baseHeader m)
        (u32be m.payload.length ++ m.payload) c
        (4 * m.headerSize) (by simp [frameErr]) (by simp) hcr
    have s4 : applyReader .rPayload ({ initOf m with errorCode := some c })
        (frameErr m c) (4 * m.headerSize + 4) =
        .ok ({ initOf m with errorCode := some c, payload := m.payload },
          (frameErr m c).length) :=
      readPayload_last ({ initOf m with errorCode := some c })
        (frameErr m c) (baseHeader m ++ u32be c)
        m.payload (4 * m.headerSize + 4) (by simp [frameErr])
        (by simp only [List.length_append, baseHeader_length, u32be_length,
          i32be_length]) rfl hpl
    have hM4 : ({ initOf m with
        errorCode := some c, payload := m.payload } : Message) = m :=
      Message.ext rfl rfl rfl rfl rfl rfl he.symm hs.symm hcid.symm hseq.symm hec.symm rfl
    rw [runReaders_step s1 _ rfl, runReaders_step s4 _ rfl, hM4]
    rfl

set_option maxHeartbeats 1000000 in
/-- Master decode-of-encode lemma: on the well-formed presence-correct
domain (minus the cases the counterexample excludes), encoding succeeds
and the reader run reproduces the message, consuming the whole frame. -/
lemma marshal_decode_run (m : Message) (hwf : wfM m) (hp : presenceOK m)
    (hrt : rtOK m) :
    ∃ frame rs, marshalMessage m = .ok frame ∧ ¬ frame.length < 3 ∧
      decodeInit frame = initOf m ∧ getReaders m.type m.flag = .ok rs ∧
      runReaders rs (initOf m) frame (4 * m.headerSize) = .ok (m, frame.length) := by
  obtain ⟨hv, hh1, hh16, hvt, hfl, hsr, hcp, hevR, hsidR, hseqR, hecR, hpB, hpL⟩ := hwf
  obtain ⟨hpe, hps, hpq, hpc, hcid⟩ := hp
  obtain ⟨hrt1, hrt2, hrt3⟩ := hrt
  by_cases hf4 : m.flag = MsgTypeFlagBits.WithEvent
  · have hct : isContent m.type = true := by
      rcases validType_cases hvt with h | h
      · exact h
      · exact absurd ⟨h, hf4⟩ hrt1
    obtain ⟨e, he⟩ : ∃ e, m.event = some e :=
      Option.isSome_iff_exists.mp (hpe.mpr hf4)
    have her : i32Range e = true := by rw [he] at hevR; simpa using hevR
    have hrte : e ≠ EventType.ConnectionStarted ∧ e ≠ EventType.ConnectionFailed ∧
        e ≠ EventType.ConnectionFinished := by
      rw [he] at hrt2; simp at hrt2; tauto
    have hseq : m.sequence = none := by
      rw [← Option.not_isSome_iff_eq_none]
      intro hsome
      rcases (hpq.mp (by simpa using hsome)).2 with h | h <;> rw [hf4] at h <;>
        exact absurd h (by decide)
    have hec : m.errorCode = none := by
      rw [← Option.not_isSome_iff_eq_none]
      intro hsome
      exact hrt1 ⟨hpc.mp (by simpa using hsome), hf4⟩
    by_cases hcs : connScope e = true
    · have hin2 : e = EventType.StartConnection ∨ e = EventType.FinishConnection := by
        simp [connScope] at hcs
        tauto
      have hs : m.sessionId = none := by
        rw [← Option.not_isSome_iff_eq_none]
        intro hsome
        have hany := (hps.mp (by simpa using hsome)).2
        rw [he] at hany
        simp [hcs] at hany
      obtain ⟨c1, c2, c3, c4, c5⟩ := rt_case_we_noSid m e hf4 hct he hs hseq hec hcid
        hh1 hv hh16 hfl hsr hcp her hin2 hpL
      exact ⟨_, _, c1, c2, c3, c4, c5⟩
    · have hcsf : connScope e = false := by revert hcs; cases connScope e <;> simp
      have hany : m.event.any (fun x => !connScope x) = true := by
        rw [he]; simp [hcsf]
      obtain ⟨sid, hsid⟩ : ∃ sid, m.sessionId = some sid :=
        Option.isSome_iff_exists.mp (hps.mpr ⟨hf4, hany⟩)
      have hsl : sid.length < 2 ^ 32 := by
        rw [hsid] at hsidR; simp at hsidR; exact hsidR.2
      have hsne : sid ≠ [] := by
        rw [hsid] at hrt3; simp at hrt3
        intro hnil; rw [hnil] at hrt3; simp at hrt3
      have hns : ¬(e = EventType.StartConnection ∨ e = EventType.FinishConnection ∨
          e = EventType.ConnectionStarted ∨ e = EventType.ConnectionFailed ∨
          e = EventType.ConnectionFinished) := by
        simp [connScope] at hcsf
        tauto
      obtain ⟨c1, c2, c3, c4, c5⟩ := rt_case_we_sid m e sid hf4 hct he hsid hseq hec hcid
        hh1 hv hh16 hfl hsr hcp her hns hsl hsne hpL
      exact ⟨_, _, c1, c2, c3, c4, c5⟩
  · have he : m.event = none := by
      rw [← Option.not_isSome_iff_eq_none]
      intro hsome
      exact hf4 (hpe.mp (by simpa using hsome))
    have hs : m.sessionId = none := by
      rw [← Option.not_isSome_iff_eq_none]
      intro hsome
      exact hf4 (hps.mp (by simpa using hsome)).1
    rcases validType_cases hvt with hct | ht15
    · have htne : m.type ≠ MsgType.Error := by
        rcases isContent_vals hct with h | h | h | h | h <;> rw [h] <;> decide
      have hec : m.errorCode = none := by
        rw [← Option.not_isSome_iff_eq_none]
        intro hsome
        exact htne (hpc.mp (by simpa using hsome))
      by_cases hf13 : m.flag = MsgTypeFlagBits.PositiveSeq ∨
          m.flag = MsgTypeFlagBits.NegativeSeq
      · obtain ⟨n, hn⟩ : ∃ n, m.sequence = some n :=
          Option.isSome_iff_exists.mp (hpq.mpr ⟨hct, hf13⟩)
        have hnr : i32Range n = true := by rw [hn] at hseqR; simpa using hseqR
        obtain ⟨c1, c2, c3, c4, c5⟩ := rt_case_seq m n hf13 hct he hs hn hec hcid
          hh1 hv hh16 hfl hsr hcp hnr hpL
        exact ⟨_, _, c1, c2, c3, c4, c5⟩
      · have hseq : m.sequence = none := by
          rw [← Option.not_isSome_iff_eq_none]
          intro hsome
          exact hf13 (hpq.mp (by simpa using hsome)).2
        obtain ⟨c1, c2, c3, c4, c5⟩ := rt_case_plain m hf4 hf13 hct he hs hseq hec hcid
          hh1 hv hh16 hfl hsr hcp hpL
        exact ⟨_, _, c1, c2, c3, c4, c5⟩
    · obtain ⟨c, hc⟩ : ∃ c, m.errorCode = some c :=
        Option.isSome_iff_exists.mp (hpc.mpr ht15)
      have hcr : c < 2 ^ 32 := by rw [hc] at hecR; simpa using hecR
      have hseq : m.sequence = none := by
        rw [← Option.not_isSome_iff_eq_none]
        intro hsome
        have := (hpq.mp (by simpa using hsome)).1
        rw [ht15] at this
        exact absurd this (by decide)
      obtain ⟨c1, c2, c3, c4, c5⟩ := rt_case_err m c hf4 ht15 he hs hseq hc hcid
        hh1 hv hh16 hfl hsr hcp hcr hpL
      exact ⟨_, _, c1, c2, c3, c4, c5⟩

/-! ## Claim C1: round-trip -/

/-- The concrete message refuting the round-trip claim: a WithEvent
FullClientRequest with event ConnectionStarted and payload `{}`.  Its
fields satisfy the claim's presence rules (ConnectionStarted is in the
connection-scope set, so no sessionId), yet decoding its encoding
fails, because the decoder's `readConnectId` consumes the payload
length field as a connectId length. -/
def ceRoundtrip : Message :=
  { createMessage MsgType.FullClientRequest MsgTypeFlagBits.WithEvent with
      event := some EventType.ConnectionStarted, payload := [123, 125] }

/-- C1, counterexample: `ceRoundtrip` satisfies the presence rules and is
well-formed, yet `unmarshalMessage (marshalMessage ceRoundtrip)` does not
return a Message at all — it fails with `insufficient data for payload
size` — so the claimed round-trip property is false as stated. -/
theorem roundtrip_counterexample :
    presenceOK ceRoundtrip ∧ wfM ceRoundtrip ∧
      marshalMessage ceRoundtrip =
        .ok [17, 20, 16, 0, 0, 0, 0, 50, 0, 0, 0, 2, 123, 125] ∧
      unmarshalMessage [17, 20, 16, 0, 0, 0, 0, 50, 0, 0, 0, 2, 123, 125] =
        .error .insufficientPayloadSize :=
  ⟨by decide, by decide, rfl, rfl⟩

/-- C1, amended: for every well-formed Message satisfying the presence
rules keyed by (kind, flag, event), PROVIDED additionally that the
message is not an Error-with-WithEvent combination, its event (if any)
is not ConnectionStarted/ConnectionFailed/ConnectionFinished, and an
applicable sessionId is non-empty, `unmarshalMessage (marshalMessage m)`
returns a Message whose every applicable field equals the corresponding
field of `m` and whose inapplicable fields are unset (the decoded
message equals `m` itself, since `m`'s inapplicable fields are unset by
the presence rules). -/
theorem roundtrip_amended (m : Message) (hwf : wfM m) (hp : presenceOK m)
    (hrt : rtOK m) :
    ∃ frame, marshalMessage m = .ok frame ∧ unmarshalMessage frame = .ok m := by
  obtain ⟨frame, rs, h1, h2, h3, h4, h5⟩ := marshal_decode_run m hwf hp hrt
  exact ⟨frame, h1, unmarshal_eq_of_run h2 h3 h4 h5⟩

/-- Witness for the amended round-trip: a WithEvent StartSession message
with sessionId `"abc"` and payload `{}`. -/
def wRoundtrip : Message :=
  { createMessage MsgType.FullClientRequest MsgTypeFlagBits.WithEvent with
      event := some EventType.StartSession, sessionId := some [97, 98, 99],
      payload := [123, 125] }

theorem roundtrip_amended_witness :
    wfM wRoundtrip ∧ presenceOK wRoundtrip ∧ rtOK wRoundtrip ∧
      ∃ frame, marshalMessage wRoundtrip = .ok frame ∧
        unmarshalMessage frame = .ok wRoundtrip :=
  ⟨by decide, by decide, by decide,
    roundtrip_amended wRoundtrip (by decide) (by decide) (by decide)⟩

/-! ## Claim C2: Scenario A encode bytes -/

/-- The Scenario A message: FullClientRequest, WithEvent,
event = StartSession (100), sessionId = "abc", payload = `{}`, with the
fixed fields `createMessage` sets. -/
def scenarioA : Message :=
  { createMessage MsgType.FullClientRequest MsgTypeFlagBits.WithEvent with
      event := some EventType.StartSession, sessionId := some [0x61, 0x62, 0x63],
      payload := [0x7b, 0x7d] }

/-- C2, counterexample: the claimed byte sequence
`01 14 01 | 00 00 00 64 | 00 00 00 03 61 62 63 | 00 00 00 02 7b 7d`
is NOT what `marshalMessage` produces (the real header bytes are
`11 14 10` — version 1/headerSize 1 pack to 0x11 and
serialization JSON/compression None pack to 0x10 — and the 4-byte
header carries a reserved zero byte). -/
theorem scenarioA_counterexample :
    marshalMessage scenarioA ≠
      .ok [0x01, 0x14, 0x01, 0x00, 0x00, 0x00, 0x64,
        0x00, 0x00, 0x00, 0x03, 0x61, 0x62, 0x63,
        0x00, 0x00, 0x00, 0x02, 0x7b, 0x7d] := by
  have hact : marshalMessage scenarioA =
      .ok [0x11, 0x14, 0x10, 0x00, 0x00, 0x00, 0x00, 0x64,
        0x00, 0x00, 0x00, 0x03, 0x61, 0x62, 0x63,
        0x00, 0x00, 0x00, 0x02, 0x7b, 0x7d] := rfl
  rw [hact]
  intro h
  exact absurd (Except.ok.inj h) (by decide)

/-- C2, amended: Scenario A encodes to `11 14 10 00`, then
`00 00 00 64`, then `00 00 00 03 61 62 63`, then `00 00 00 02 7b 7d`. -/
theorem scenarioA_encode :
    marshalMessage scenarioA =
      .ok [0x11, 0x14, 0x10, 0x00, 0x00, 0x00, 0x00, 0x64,
        0x00, 0x00, 0x00, 0x03, 0x61, 0x62, 0x63,
        0x00, 0x00, 0x00, 0x02, 0x7b, 0x7d] := rfl

/-! ## Claim C6: demultiplexer invariant -/

/-- C6, counterexample: the initial demultiplexer state (reachable by
the empty interleaving) has BOTH the queue and the waiter list empty,
so "exactly one of {queue non-empty, waiters non-empty} holds at any
instant" is false as stated. -/
theorem demux_exactly_one_counterexample :
    ReachableDemux ⟨[], []⟩ ∧ ¬ exactlyOneNonEmpty ⟨[], []⟩ :=
  ⟨ReachableDemux.init, by simp [exactlyOneNonEmpty]⟩

/-- C6, amended: in every state reachable by any interleaving of frame
arrivals and `ReceiveMessage` calls, AT MOST one of {queue non-empty,
waiter list non-empty} holds: the queue and the waiter list are never
simultaneously non-empty. -/
theorem demux_at_most_one_nonempty (s : DemuxState) (h : ReachableDemux s) :
    s.queue = [] ∨ s.callbacks = [] := by
  induction h with
  | init => exact Or.inl rfl
  | frame s msg _ ih =>
    unfold onFrameArrived
    cases hc : s.callbacks with
    | nil =>
      rcases ih with hq | _
      · simp [hq]
      · simp [hc]
    | cons w rest =>
      rcases ih with hq | hcb
      · simp [hq]
      · rw [hcb] at hc; exact absurd hc (by simp)
  | recv s fresh _ ih =>
    unfold receiveMessage
    cases hq : s.queue with
    | nil => simp
    | cons msg rest =>
      rcases ih with hq' | hcb
      · rw [hq'] at hq; exact absurd hq (by simp)
      · simp [hcb]

theorem demux_at_most_one_nonempty_witness :
    (⟨[], []⟩ : DemuxState).queue = [] ∨ (⟨[], []⟩ : DemuxState).callbacks = [] :=
  demux_at_most_one_nonempty ⟨[], []⟩ ReachableDemux.init

/-! ## Claim C7: FIFO delivery and waiter-first delivery -/

/-- C7: frames M1, M2, M3 arriving at the empty state (no pending
waiter) are queued, and three sequential `ReceiveMessage` calls pop
exactly M1, M2, M3 in that order; and a `ReceiveMessage` issued before
any frame has arrived registers a waiter which the NEXT arriving frame
resolves (delivered to that waiter, not queued). -/
theorem demux_fifo_and_waiter_first (M1 M2 M3 N : Message) (w w1 w2 w3 : Nat) :
    (onFrameArrived ⟨[], []⟩ M1 = (⟨[M1], []⟩, .queued M1) ∧
      onFrameArrived ⟨[M1], []⟩ M2 = (⟨[M1, M2], []⟩, .queued M2) ∧
      onFrameArrived ⟨[M1, M2], []⟩ M3 = (⟨[M1, M2, M3], []⟩, .queued M3) ∧
      receiveMessage ⟨[M1, M2, M3], []⟩ w1 = (⟨[M2, M3], []⟩, .popped M1) ∧
      receiveMessage ⟨[M2, M3], []⟩ w2 = (⟨[M3], []⟩, .popped M2) ∧
      receiveMessage ⟨[M3], []⟩ w3 = (⟨[], []⟩, .popped M3)) ∧
    (receiveMessage ⟨[], []⟩ w = (⟨[], [w]⟩, .registered w) ∧
      onFrameArrived ⟨[], [w]⟩ N = (⟨[], []⟩, .delivered w N)) :=
  ⟨⟨rfl, rfl, rfl, rfl, rfl, rfl⟩, rfl, rfl⟩

/-! ## Claim C8: streaming-consumption loop -/

/-- C8: (i) for arrivals [FullServerResponse without SessionFinished,
AudioOnlyServer A, AudioOnlyServer B, FullServerResponse with
SessionFinished] the loop consumes exactly those four messages (any
later arrivals are returned unconsumed) and the accumulated audio is
A ++ B; (ii) a message of any other kind fails the loop immediately
with the `default:` throw carrying that kind; (iii) if the loop
terminates normally with no accumulated audio chunk, the result is the
EmptyResult (`no audio received`) error. -/
theorem streaming_loop_behavior :
    (∀ (m1 ma mb m4 : Message) (rest : List Message),
      m1.type = MsgType.FullServerResponse →
      m1.event ≠ some EventType.SessionFinished →
      ma.type = MsgType.AudioOnlyServer →
      mb.type = MsgType.AudioOnlyServer →
      m4.type = MsgType.FullServerResponse →
      m4.event = some EventType.SessionFinished →
      collectAudio (m1 :: ma :: mb :: m4 :: rest) =
        .ok (ma.payload ++ mb.payload, rest)) ∧
    (∀ (m : Message) (rest : List Message) (acc : List (List Nat)),
      m.type ≠ MsgType.FullServerResponse → m.type ≠ MsgType.AudioOnlyServer →
      streamLoop (m :: rest) acc = .error (.unexpectedMessageKind m.type)) ∧
    (∀ (arrivals rest : List Message),
      streamLoop arrivals [] = .ok ([], rest) →
      collectAudio arrivals = .error .emptyResult) := by
  refine ⟨?_, ?_, ?_⟩
  · intro m1 ma mb m4 rest h1t h1e hat hbt h4t h4e
    have hane : ma.type ≠ MsgType.FullServerResponse := by rw [hat]; decide
    have hbne : mb.type ≠ MsgType.FullServerResponse := by rw [hbt]; decide
    unfold collectAudio
    rw [show streamLoop (m1 :: ma :: mb :: m4 :: rest) [] =
      .ok ([ma.payload, mb.payload], rest) from by
        unfold streamLoop
        rw [if_pos h1t, if_neg h1e]
        unfold streamLoop
        rw [if_neg hane, if_pos hat]
        unfold streamLoop
        rw [if_neg hbne, if_pos hbt]
        unfold streamLoop
        rw [if_pos h4t, if_pos h4e]
        rfl]
    simp
  · intro m rest acc hm1 hm2
    unfold streamLoop
    rw [if_neg hm1, if_neg hm2]
  · intro arrivals rest hrun
    unfold collectAudio
    rw [hrun]
    rfl

/-- Witness for the streaming loop: a concrete four-message arrival
sequence with payloads [1, 2] and [3]. -/
theorem streaming_loop_behavior_witness :
    collectAudio
      [{ createMessage MsgType.FullServerResponse MsgTypeFlagBits.NoSeq with
          event := some EventType.SessionStarted },
        { createMessage MsgType.AudioOnlyServer MsgTypeFlagBits.NoSeq with
          payload := [1, 2] },
        { createMessage MsgType.AudioOnlyServer MsgTypeFlagBits.NoSeq with
          payload := [3] },
        { createMessage MsgType.FullServerResponse MsgTypeFlagBits.NoSeq with
          event := some EventType.SessionFinished }] = .ok ([1, 2] ++ [3], []) :=
  streaming_loop_behavior.1 _ _ _ _ []
    rfl (by decide) rfl rfl rfl rfl

/-! ## Claim C9: WaitForEvent -/

/-- C9: `WaitForEvent` consumes exactly one received message; when the
received message's (kind, event) equals the expectation it returns that
message (with the rest of the stream untouched), and otherwise it fails
with the UnexpectedMessage error carrying the observed kind and the
observed event (rendered `msg.event || 0` as in the source). -/
theorem waitForEvent_behavior (msg : Message) (rest : List Message)
    (mt : Nat) (et : Int) :
    (msg.type = mt ∧ msg.event = some et →
      WaitForEvent (msg :: rest) mt et = .ok (msg, rest)) ∧
    (¬(msg.type = mt ∧ msg.event = some et) →
      WaitForEvent (msg :: rest) mt et =
        .error (.unexpectedMessage msg.type (msg.event.getD 0))) := by
  constructor
  · intro h
    unfold WaitForEvent
    dsimp only
    rw [if_pos h]
  · intro h
    unfold WaitForEvent
    dsimp only
    rw [if_neg h]

theorem waitForEvent_behavior_witness :
    WaitForEvent [{ createMessage MsgType.FullServerResponse
        MsgTypeFlagBits.WithEvent with event := some EventType.ConnectionStarted }]
      MsgType.FullServerResponse EventType.ConnectionStarted =
      .ok ({ createMessage MsgType.FullServerResponse MsgTypeFlagBits.WithEvent with
        event := some EventType.ConnectionStarted }, []) :=
  (waitForEvent_behavior _ [] _ _).1 ⟨rfl, rfl⟩

/-! ## Claim C10: zero-length length prefixes -/

/-- The message whose encoding carries an explicitly empty sessionId. -/
def emptySidMsg : Message :=
  { createMessage MsgType.FullClientRequest MsgTypeFlagBits.WithEvent with
      event := some EventType.StartSession, sessionId := some [],
      payload := [123, 125] }

/-- C10: when a 4-byte length prefix equals zero, `readSessionId`,
`readConnectId` and `readPayload` consume exactly the 4 length bytes
and return the message unchanged (sessionId/connectId stay unset,
payload stays at its initial empty value); consequently a message
encoded with an empty-string sessionId decodes back with `sessionId`
unset rather than the empty string. -/
theorem zero_length_prefix_reads :
    (∀ (m : Message) (pre rest : List Nat) (e : Int),
      m.event = some e →
      ¬(e = EventType.StartConnection ∨ e = EventType.FinishConnection ∨
        e = EventType.ConnectionStarted ∨ e = EventType.ConnectionFailed ∨
        e = EventType.ConnectionFinished) →
      readSessionId m (pre ++ u32be 0 ++ rest) pre.length = .ok (m, pre.length + 4)) ∧
    (∀ (m : Message) (pre rest : List Nat) (e : Int),
      m.event = some e →
      (e = EventType.ConnectionStarted ∨ e = EventType.ConnectionFailed ∨
        e = EventType.ConnectionFinished) →
      readConnectId m (pre ++ u32be 0 ++ rest) pre.length = .ok (m, pre.length + 4)) ∧
    (∀ (m : Message) (pre rest : List Nat),
      readPayload m (pre ++ u32be 0 ++ rest) pre.length = .ok (m, pre.length + 4)) ∧
    marshalMessage emptySidMsg =
      .ok [17, 20, 16, 0, 0, 0, 0, 100, 0, 0, 0, 0, 0, 0, 0, 2, 123, 125] ∧
    unmarshalMessage [17, 20, 16, 0, 0, 0, 0, 100, 0, 0, 0, 0, 0, 0, 0, 2, 123, 125] =
      .ok { emptySidMsg with sessionId := none } := by
  refine ⟨?_, ?_, ?_, rfl, rfl⟩
  · intro m pre rest e he hns
    exact readSessionId_zero m _ pre rest e _ rfl rfl he hns
  · intro m pre rest e he hin
    exact readConnectId_zero m _ pre rest e _ rfl rfl he hin
  · intro m pre rest
    exact readPayload_zero m _ pre rest _ rfl rfl

/-- Witness message for the zero-length reader lemmas. -/
def wZeroMsg : Message :=
  { createMessage MsgType.FullClientRequest MsgTypeFlagBits.WithEvent with
      event := some EventType.StartSession }

theorem zero_length_prefix_reads_witness :
    readSessionId wZeroMsg (([] : List Nat) ++ u32be 0 ++ [])
      ([] : List Nat).length = .ok (wZeroMsg, ([] : List Nat).length + 4) :=
  zero_length_prefix_reads.1 wZeroMsg [] [] EventType.StartSession rfl (by decide)

/-! ## Claim C4: decoder dispatch order -/

/-- C4: for every buffer of length at least 3, the reader list
`unmarshalMessage` runs is: first `rSequence` (content kinds with
PositiveSeq/NegativeSeq flag) or `rErrorCode` (Error kind,
unconditionally), any other kind failing with UnsupportedMessageType;
then, when `flag == WithEvent`, `rEvent`, `rSessionId` (which skips the
five connection-scope events), `rConnectId` (which reads only for
ConnectionStarted/ConnectionFailed/ConnectionFinished); finally
`rPayload` — and `unmarshalMessage` is exactly the run of that list
from offset `4 * headerSize`. -/
theorem unmarshal_reader_order (data : List Nat) (h3 : 3 ≤ data.length) :
    (isContent (decodeInit data).type = true →
      getReaders (decodeInit data).type (decodeInit data).flag = .ok
        ((if (decodeInit data).flag = MsgTypeFlagBits.PositiveSeq ∨
            (decodeInit data).flag = MsgTypeFlagBits.NegativeSeq
          then [.rSequence] else []) ++
          ((if (decodeInit data).flag = MsgTypeFlagBits.WithEvent
            then [.rEvent, .rSessionId, .rConnectId] else []) ++ [.rPayload]))) ∧
    ((decodeInit data).type = MsgType.Error →
      getReaders (decodeInit data).type (decodeInit data).flag = .ok
        ([.rErrorCode] ++
          ((if (decodeInit data).flag = MsgTypeFlagBits.WithEvent
            then [.rEvent, .rSessionId, .rConnectId] else []) ++ [.rPayload]))) ∧
    (isContent (decodeInit data).type = false →
      (decodeInit data).type ≠ MsgType.Error →
      unmarshalMessage data =
        .error (.unsupportedMessageType (decodeInit data).type)) ∧
    (∀ rs, getReaders (decodeInit data).type (decodeInit data).flag = .ok rs →
      unmarshalMessage data =
        match runReaders rs (decodeInit data) data
            (4 * (decodeInit data).headerSize) with
        | .error e => .error e
        | .ok (msg', _) => .ok msg') ∧
    (∀ (m : Message) (o : Nat) (e : Int), m.event = some e →
      (e = EventType.StartConnection ∨ e = EventType.FinishConnection ∨
        e = EventType.ConnectionStarted ∨ e = EventType.ConnectionFailed ∨
        e = EventType.ConnectionFinished) →
      readSessionId m data o = .ok (m, o)) ∧
    (∀ (m : Message) (o : Nat) (e : Int), m.event = some e →
      ¬(e = EventType.ConnectionStarted ∨ e = EventType.ConnectionFailed ∨
        e = EventType.ConnectionFinished) →
      readConnectId m data o = .ok (m, o)) := by
  refine ⟨?_, ?_, ?_, ?_, ?_, ?_⟩
  · intro hct
    simp [getReaders, hct]
  · intro ht15
    have hcf : isContent MsgType.Error = false := by decide
    simp [getReaders, ht15, hcf]
  · intro hct hne
    have hgr : getReaders (decodeInit data).type (decodeInit data).flag =
        .error (.unsupportedMessageType (decodeInit data).type) := by
      simp [getReaders, hct, hne]
    unfold unmarshalMessage
    rw [if_neg (by omega)]
    simp only [hgr]
  · intro rs hrs
    unfold unmarshalMessage
    rw [if_neg (by omega)]
    simp only [hrs]
  · intro m o e he hin
    exact readSessionId_skip m data o e he hin
  · intro m o e he hns
    exact readConnectId_skip m data o e he hns

theorem unmarshal_reader_order_witness :
    unmarshalMessage [17, 48, 16] =
      .error (.unsupportedMessageType (decodeInit [17, 48, 16]).type) :=
  (unmarshal_reader_order [17, 48, 16] (by decide)).2.2.1 (by decide) (by decide)

/-! ## Inversion lemmas for successful reads (used for the
presence-by-applicability claim) -/

lemma readEvent_ok_inv {m : Message} {data : List Nat} {o : Nat} {m' : Message}
    {o' : Nat} (h : readEvent m data o = .ok (m', o')) :
    m' = { m with event := some (getI32 data o) } ∧ o' = o + 4 := by
  unfold readEvent at h
  split at h
  · cases h
  · simp only [Except.ok.injEq, Prod.mk.injEq] at h
    exact ⟨h.1.symm, h.2.symm⟩

lemma readSequence_ok_inv {m : Message} {data : List Nat} {o : Nat} {m' : Message}
    {o' : Nat} (h : readSequence m data o = .ok (m', o')) :
    m' = { m with sequence := some (getI32 data o) } ∧ o' = o + 4 := by
  unfold readSequence at h
  split at h
  · cases h
  · simp only [Except.ok.injEq, Prod.mk.injEq] at h
    exact ⟨h.1.symm, h.2.symm⟩

lemma readErrorCode_ok_inv {m : Message} {data : List Nat} {o : Nat} {m' : Message}
    {o' : Nat} (h : readErrorCode m data o = .ok (m', o')) :
    m' = { m with errorCode := some (getU32 data o) } ∧ o' = o + 4 := by
  unfold readErrorCode at h
  split at h
  · cases h
  · simp only [Except.ok.injEq, Prod.mk.injEq] at h
    exact ⟨h.1.symm, h.2.symm⟩

lemma readSessionId_ok_inv {m : Message} {data : List Nat} {o : Nat} {m' : Message}
    {o' : Nat} (h : readSessionId m data o = .ok (m', o')) :
    m' = m ∨ (∃ e s, m.event = some e ∧
      ¬(e = EventType.StartConnection ∨ e = EventType.FinishConnection ∨
        e = EventType.ConnectionStarted ∨ e = EventType.ConnectionFailed ∨
        e = EventType.ConnectionFinished) ∧
      m' = { m with sessionId := some s }) := by
  unfold readSessionId at h
  cases hev : m.event with
  | none =>
    rw [hev] at h
    simp only [Except.ok.injEq, Prod.mk.injEq] at h
    exact Or.inl h.1.symm
  | some e =>
    rw [hev] at h
    dsimp only at h
    split at h
    · simp only [Except.ok.injEq, Prod.mk.injEq] at h
      exact Or.inl h.1.symm
    · rename_i hns
      split at h
      · cases h
      · split at h
        · split at h
          · cases h
          · simp only [Except.ok.injEq, Prod.mk.injEq] at h
            exact Or.inr ⟨e, _, rfl, hns, h.1.symm⟩
        · simp only [Except.ok.injEq, Prod.mk.injEq] at h
          exact Or.inl h.1.symm

lemma readConnectId_ok_inv {m : Message} {data : List Nat} {o : Nat} {m' : Message}
    {o' : Nat} (h : readConnectId m data o = .ok (m', o')) :
    m' = m ∨ (∃ e s, m.event = some e ∧
      (e = EventType.ConnectionStarted ∨ e = EventType.ConnectionFailed ∨
        e = EventType.ConnectionFinished) ∧
      m' = { m with connectId := some s }) := by
  unfold readConnectId at h
  cases hev : m.event with
  | none =>
    rw [hev] at h
    simp only [Except.ok.injEq, Prod.mk.injEq] at h
    exact Or.inl h.1.symm
  | some e =>
    rw [hev] at h
    dsimp only at h
    split at h
    · rename_i hin
      split at h
      · cases h
      · split at h
        · split at h
          · cases h
          · simp only [Except.ok.injEq, Prod.mk.injEq] at h
            exact Or.inr ⟨e, _, rfl, hin, h.1.symm⟩
        · simp only [Except.ok.injEq, Prod.mk.injEq] at h
          exact Or.inl h.1.symm
    · simp only [Except.ok.injEq, Prod.mk.injEq] at h
      exact Or.inl h.1.symm

lemma readPayload_ok_inv {m : Message} {data : List Nat} {o : Nat} {m' : Message}
    {o' : Nat} (h : readPayload m data o = .ok (m', o')) :
    ∃ p, m' = { m with payload := p } := by
  unfold readPayload at h
  split at h
  · cases h
  · dsimp only at h
    split at h
    · split at h
      · cases h
      · simp only [Except.ok.injEq, Prod.mk.injEq] at h
        exact ⟨_, h.1.symm⟩
    · simp only [Except.ok.injEq, Prod.mk.injEq] at h
      exact ⟨m.payload, h.1.symm⟩

lemma runReaders_nil_ok_inv {m : Message} {data : List Nat} {o : Nat} {m' : Message}
    {o' : Nat} (h : runReaders [] m data o = .ok (m', o')) : m' = m ∧ o' = o := by
  unfold runReaders at h
  simp only [Except.ok.injEq, Prod.mk.injEq] at h
  exact ⟨h.1.symm, h.2.symm⟩

lemma runReaders_cons_ok_inv {r : Reader} {rs : List Reader} {m : Message}
    {data : List Nat} {o : Nat} {m' : Message} {o' : Nat}
    (h : runReaders (r :: rs) m data o = .ok (m', o')) :
    ∃ m1 o1, applyReader r m data o = .ok (m1, o1) ∧
      runReaders rs m1 data o1 = .ok (m', o') := by
  unfold runReaders at h
  cases happ : applyReader r m data o with
  | error e => rw [happ] at h; cases h
  | ok p =>
    obtain ⟨m1, o1⟩ := p
    rw [happ] at h
    dsimp only at h
    exact ⟨m1, o1, rfl, h⟩

lemma unmarshal_ok_inv {data : List Nat} {m : Message}
    (h : unmarshalMessage data = .ok m) :
    ¬ data.length < 3 ∧ ∃ rs o',
      getReaders (decodeInit data).type (decodeInit data).flag = .ok rs ∧
      runReaders rs (decodeInit data) data (4 * (decodeInit data).headerSize) =
        .ok (m, o') := by
  unfold unmarshalMessage at h
  split at h
  · cases h
  · rename_i h3
    cases hgr : getReaders (decodeInit data).type (decodeInit data).flag with
    | error e =>
      rw [hgr] at h
      dsimp only at h
      cases h
    | ok rs =>
      rw [hgr] at h
      dsimp only at h
      cases hrun : runReaders rs (decodeInit data) data
          (4 * (decodeInit data).headerSize) with
      | error e =>
        rw [hrun] at h
        dsimp only at h
        cases h
      | ok p =>
        obtain ⟨m1, o1⟩ := p
        rw [hrun] at h
        dsimp only at h
        cases h
        exact ⟨h3, rs, o1, rfl, hrun⟩

lemma isContent_ne_err {t : Nat} (h : isContent t = true) : t ≠ MsgType.Error := by
  rcases isContent_vals h with h | h | h | h | h <;> rw [h] <;> decide

lemma getReaders_we_err {t f : Nat}
    (hf4 : f = MsgTypeFlagBits.WithEvent) (ht : t = MsgType.Error) :
    getReaders t f = .ok [.rErrorCode, .rEvent, .rSessionId, .rConnectId, .rPayload] := by
  have hcf : isContent MsgType.Error = false := by decide
  simp [getReaders, hf4, ht, hcf]

lemma getWriters_we_err {m : Message}
    (hf4 : m.flag = MsgTypeFlagBits.WithEvent) (ht : m.type = MsgType.Error) :
    getWriters m = .ok [.wEvent, .wSessionId, .wErrorCode, .wPayload] := by
  have hcf : isContent MsgType.Error = false := by decide
  simp [getWriters, hf4, ht, hcf]

@[simp] lemma decodeInit_event (data : List Nat) : (decodeInit data).event = none := rfl

@[simp] lemma decodeInit_sessionId (data : List Nat) :
    (decodeInit data).sessionId = none := rfl

@[simp] lemma decodeInit_connectId (data : List Nat) :
    (decodeInit data).connectId = none := rfl

@[simp] lemma decodeInit_sequence (data : List Nat) :
    (decodeInit data).sequence = none := rfl

@[simp] lemma decodeInit_errorCode (data : List Nat) :
    (decodeInit data).errorCode = none := rfl

/-- Field presence in a successfully decoded message: event, sequence
and errorCode presence are functions of (kind, flag) alone; sessionId
and connectId can only be set when applicable per (flag, event). -/
lemma decode_presence {data : List Nat} {m : Message}
    (h : unmarshalMessage data = .ok m) :
    (m.event.isSome = true ↔ m.flag = MsgTypeFlagBits.WithEvent) ∧
    (m.sequence.isSome = true ↔ (isContent m.type = true ∧
      (m.flag = MsgTypeFlagBits.PositiveSeq ∨ m.flag = MsgTypeFlagBits.NegativeSeq))) ∧
    (m.errorCode.isSome = true ↔ m.type = MsgType.Error) ∧
    (m.sessionId.isSome = true → m.flag = MsgTypeFlagBits.WithEvent ∧
      ∃ e, m.event = some e ∧
        ¬(e = EventType.StartConnection ∨ e = EventType.FinishConnection ∨
          e = EventType.ConnectionStarted ∨ e = EventType.ConnectionFailed ∨
          e = EventType.ConnectionFinished)) ∧
    (m.connectId.isSome = true → m.flag = MsgTypeFlagBits.WithEvent ∧
      ∃ e, m.event = some e ∧
        (e = EventType.ConnectionStarted ∨ e = EventType.ConnectionFailed ∨
          e = EventType.ConnectionFinished)) := by
  obtain ⟨h3, rs, o', hgr, hrun⟩ := unmarshal_ok_inv h
  by_cases hct : isContent (decodeInit data).type = true
  · by_cases hf4 : (decodeInit data).flag = MsgTypeFlagBits.WithEvent
    · rw [getReaders_we_content hf4 hct] at hgr
      cases Except.ok.inj hgr
      obtain ⟨m1, o1, hA, hrest1⟩ := runReaders_cons_ok_inv hrun
      obtain ⟨m2, o2, hB, hrest2⟩ := runReaders_cons_ok_inv hrest1
      obtain ⟨m3, o3, hC, hrest3⟩ := runReaders_cons_ok_inv hrest2
      obtain ⟨m4, o4, hD, hrest4⟩ := runReaders_cons_ok_inv hrest3
      obtain ⟨hm, -⟩ := runReaders_nil_ok_inv hrest4
      subst hm
      simp only [applyReader] at hA hB hC hD
      obtain ⟨hm1, -⟩ := readEvent_ok_inv hA
      subst hm1
      obtain ⟨p, hm4⟩ := readPayload_ok_inv hD
      subst hm4
      have htne := isContent_ne_err hct
      rcases readSessionId_ok_inv hB with hm2 | ⟨e2, s2, hev2, hns2, hm2⟩ <;> subst hm2
      · rcases readConnectId_ok_inv hC with hm3 | ⟨e3, s3, hev3, hin3, hm3⟩ <;> subst hm3
        · exact ⟨by simp [hf4], by simp [hf4, MsgTypeFlagBits.WithEvent,
            MsgTypeFlagBits.PositiveSeq, MsgTypeFlagBits.NegativeSeq],
            by simp [htne], by simp, by simp⟩
        · exact ⟨by simp [hf4], by simp [hf4, MsgTypeFlagBits.WithEvent,
            MsgTypeFlagBits.PositiveSeq, MsgTypeFlagBits.NegativeSeq],
            by simp [htne], by simp,
            fun _ => ⟨hf4, e3, hev3, hin3⟩⟩
      · rcases readConnectId_ok_inv hC with hm3 | ⟨e3, s3, hev3, hin3, hm3⟩ <;> subst hm3
        · exact ⟨by simp [hf4], by simp [hf4, MsgTypeFlagBits.WithEvent,
            MsgTypeFlagBits.PositiveSeq, MsgTypeFlagBits.NegativeSeq],
            by simp [htne], fun _ => ⟨hf4, e2, hev2, hns2⟩, by simp⟩
        · exact ⟨by simp [hf4], by simp [hf4, MsgTypeFlagBits.WithEvent,
            MsgTypeFlagBits.PositiveSeq, MsgTypeFlagBits.NegativeSeq],
            by simp [htne], fun _ => ⟨hf4, e2, hev2, hns2⟩,
            fun _ => ⟨hf4, e3, hev3, hin3⟩⟩
    · by_cases hf13 : (decodeInit data).flag = MsgTypeFlagBits.PositiveSeq ∨
          (decodeInit data).flag = MsgTypeFlagBits.NegativeSeq
      · rw [getReaders_seq_content hf13 hct] at hgr
        cases Except.ok.inj hgr
        obtain ⟨m1, o1, hA, hrest1⟩ := runReaders_cons_ok_inv hrun
        obtain ⟨m4, o4, hD, hrest4⟩ := runReaders_cons_ok_inv hrest1
        obtain ⟨hm, -⟩ := runReaders_nil_ok_inv hrest4
        subst hm
        simp only [applyReader] at hA hD
        obtain ⟨hm1, -⟩ := readSequence_ok_inv hA
        subst hm1
        obtain ⟨p, hm4⟩ := readPayload_ok_inv hD
        subst hm4
        have htne := isContent_ne_err hct
        exact ⟨by simpa using fun h4 => hf4 h4,
          by simpa using ⟨hct, hf13⟩, by simp [htne], by simp, by simp⟩
      · rw [getReaders_plain_content hf4 hf13 hct] at hgr
        cases Except.ok.inj hgr
        obtain ⟨m4, o4, hD, hrest4⟩ := runReaders_cons_ok_inv hrun
        obtain ⟨hm, -⟩ := runReaders_nil_ok_inv hrest4
        subst hm
        simp only [applyReader] at hD
        obtain ⟨p, hm4⟩ := readPayload_ok_inv hD
        subst hm4
        have htne := isContent_ne_err hct
        exact ⟨by simpa using fun h4 => hf4 h4,
          by simpa using fun _ h13 => hf13 h13, by simp [htne], by simp, by simp⟩
  · by_cases ht15 : (decodeInit data).type = MsgType.Error
    · have hcf : isContent (decodeInit data).type = false := by
        revert hct; cases isContent (decodeInit data).type <;> simp
      by_cases hf4 : (decodeInit data).flag = MsgTypeFlagBits.WithEvent
      · rw [getReaders_we_err hf4 ht15] at hgr
        cases Except.ok.inj hgr
        obtain ⟨m0, o0, hE, hrest0⟩ := runReaders_cons_ok_inv hrun
        obtain ⟨m1, o1, hA, hrest1⟩ := runReaders_cons_ok_inv hrest0
        obtain ⟨m2, o2, hB, hrest2⟩ := runReaders_cons_ok_inv hrest1
        obtain ⟨m3, o3, hC, hrest3⟩ := runReaders_cons_ok_inv hrest2
        obtain ⟨m4, o4, hD, hrest4⟩ := runReaders_cons_ok_inv hrest3
        obtain ⟨hm, -⟩ := runReaders_nil_ok_inv hrest4
        subst hm
        simp only [applyReader] at hE hA hB hC hD
        obtain ⟨hm0, -⟩ := readErrorCode_ok_inv hE
        subst hm0
        obtain ⟨hm1, -⟩ := readEvent_ok_inv hA
        subst hm1
        obtain ⟨p, hm4⟩ := readPayload_ok_inv hD
        subst hm4
        rcases readSessionId_ok_inv hB with hm2 | ⟨e2, s2, hev2, hns2, hm2⟩ <;> subst hm2
        · rcases readConnectId_ok_inv hC with hm3 | ⟨e3, s3, hev3, hin3, hm3⟩ <;> subst hm3
          · exact ⟨by simp [hf4], by simp [hcf], by simp [ht15], by simp, by simp⟩
          · exact ⟨by simp [hf4], by simp [hcf], by simp [ht15], by simp,
              fun _ => ⟨hf4, e3, hev3, hin3⟩⟩
        · rcases readConnectId_ok_inv hC with hm3 | ⟨e3, s3, hev3, hin3, hm3⟩ <;> subst hm3
          · exact ⟨by simp [hf4], by simp [hcf], by simp [ht15],
              fun _ => ⟨hf4, e2, hev2, hns2⟩, by simp⟩
          · exact ⟨by simp [hf4], by simp [hcf], by simp [ht15],
              fun _ => ⟨hf4, e2, hev2, hns2⟩, fun _ => ⟨hf4, e3, hev3, hin3⟩⟩
      · rw [getReaders_err hf4 ht15] at hgr
        cases Except.ok.inj hgr
        obtain ⟨m0, o0, hE, hrest0⟩ := runReaders_cons_ok_inv hrun
        obtain ⟨m4, o4, hD, hrest4⟩ := runReaders_cons_ok_inv hrest0
        obtain ⟨hm, -⟩ := runReaders_nil_ok_inv hrest4
        subst hm
        simp only [applyReader] at hE hD
        obtain ⟨hm0, -⟩ := readErrorCode_ok_inv hE
        subst hm0
        obtain ⟨p, hm4⟩ := readPayload_ok_inv hD
        subst hm4
        exact ⟨by simpa using fun h4 => hf4 h4, by simp [hcf],
          by simp [ht15], by simp, by simp⟩
    · have : getReaders (decodeInit data).type (decodeInit data).flag =
          .error (.unsupportedMessageType (decodeInit data).type) := by
        simp [getReaders, hct, ht15]
      rw [this] at hgr
      cases hgr

lemma writtenB_eq {m : Message} {ws : List Writer} (h : getWriters m = .ok ws)
    (w : Writer) : writtenB m w = (ws.contains w && (applyWriter w m).isSome) := by
  unfold writtenB
  rw [h]

/-- Encoder-side presence: on messages whose applicable fields are set,
whether each writer contributes bytes is exactly `presenceRule`, a
function of the (kind, flag, event) triple alone. -/
lemma enc_presence (m : Message) (hset : setOK m) (w : Writer) :
    writtenB m w = presenceRule m.type m.flag m.event w := by
  obtain ⟨hs1, hs2, hs3⟩ := hset
  by_cases hvt : validType m.type = true
  · rcases validType_cases hvt with hct | ht15
    · have htne := isContent_ne_err hct
      have hbne : (m.type == MsgType.Error) = false := beq_eq_false_iff_ne.mpr htne
      by_cases hf4 : m.flag = MsgTypeFlagBits.WithEvent
      · obtain ⟨e, he⟩ : ∃ e, m.event = some e :=
          Option.isSome_iff_exists.mp (hs1 hf4)
        have hw := getWriters_we_content hf4 hct
        by_cases hcs : connScope e = true
        · have hd4 : e = EventType.StartConnection ∨ e = EventType.FinishConnection ∨
              e = EventType.ConnectionStarted ∨ e = EventType.ConnectionFailed := by
            simp [connScope] at hcs
            tauto
          cases w <;>
            simp [writtenB_eq hw, applyWriter, writeEvent, writeSessionId,
              writeSequence, writeErrorCode, writePayload, presenceRule, hvt, hct,
              hf4, he, hcs, hd4, hbne, MsgTypeFlagBits.WithEvent,
              MsgTypeFlagBits.PositiveSeq, MsgTypeFlagBits.NegativeSeq]
        · have hcsf : connScope e = false := by revert hcs; cases connScope e <;> simp
          have hd4 : ¬(e = EventType.StartConnection ∨ e = EventType.FinishConnection ∨
              e = EventType.ConnectionStarted ∨ e = EventType.ConnectionFailed) := by
            simp [connScope] at hcsf
            tauto
          cases w <;>
            simp [writtenB_eq hw, applyWriter, writeEvent, writeSessionId,
              writeSequence, writeErrorCode, writePayload, presenceRule, hvt, hct,
              hf4, he, hcsf, hd4, hbne, MsgTypeFlagBits.WithEvent,
              MsgTypeFlagBits.PositiveSeq, MsgTypeFlagBits.NegativeSeq]
      · have hb4 : (m.flag == MsgTypeFlagBits.WithEvent) = false :=
          beq_eq_false_iff_ne.mpr hf4
        by_cases hf13 : m.flag = MsgTypeFlagBits.PositiveSeq ∨
            m.flag = MsgTypeFlagBits.NegativeSeq
        · obtain ⟨n, hn⟩ : ∃ n, m.sequence = some n :=
            Option.isSome_iff_exists.mp (hs2 hct hf13)
          have hw := getWriters_seq_content hf13 hct
          have hb13 : (m.flag == MsgTypeFlagBits.PositiveSeq ||
              m.flag == MsgTypeFlagBits.NegativeSeq) = true := by
            rcases hf13 with h | h <;> simp [h]
          cases w <;>
            simp [writtenB_eq hw, applyWriter, writeEvent, writeSessionId,
              writeSequence, writeErrorCode, writePayload, presenceRule, hvt, hct,
              hb4, hb13, hn, hbne]
        · have hw := getWriters_plain_content hf4 hf13 hct
          have hb13 : (m.flag == MsgTypeFlagBits.PositiveSeq ||
              m.flag == MsgTypeFlagBits.NegativeSeq) = false := by
            have h1 : m.flag ≠ MsgTypeFlagBits.PositiveSeq := fun h => hf13 (Or.inl h)
            have h2 : m.flag ≠ MsgTypeFlagBits.NegativeSeq := fun h => hf13 (Or.inr h)
            simp [beq_eq_false_iff_ne.mpr h1, beq_eq_false_iff_ne.mpr h2]
          cases w <;>
            simp [writtenB_eq hw, applyWriter, writeEvent, writeSessionId,
              writeSequence, writeErrorCode, writePayload, presenceRule, hvt, hct,
              hb4, hb13, hbne]
    · have hcf : isContent m.type = false := by
        rw [ht15]; decide
      have hbt : (m.type == MsgType.Error) = true := by simp [ht15]
      by_cases hf4 : m.flag = MsgTypeFlagBits.WithEvent
      · obtain ⟨e, he⟩ : ∃ e, m.event = some e :=
          Option.isSome_iff_exists.mp (hs1 hf4)
        obtain ⟨c, hc⟩ : ∃ c, m.errorCode = some c :=
          Option.isSome_iff_exists.mp (hs3 ht15)
        have hw := getWriters_we_err hf4 ht15
        by_cases hcs : connScope e = true
        · have hd4 : e = EventType.StartConnection ∨ e = EventType.FinishConnection ∨
              e = EventType.ConnectionStarted ∨ e = EventType.ConnectionFailed := by
            simp [connScope] at hcs
            tauto
          cases w <;>
            simp [writtenB_eq hw, applyWriter, writeEvent, writeSessionId,
              writeSequence, writeErrorCode, writePayload, presenceRule, hvt, hcf,
              hf4, he, hc, hcs, hd4, hbt]
        · have hcsf : connScope e = false := by revert hcs; cases connScope e <;> simp
          have hd4 : ¬(e = EventType.StartConnection ∨ e = EventType.FinishConnection ∨
              e = EventType.ConnectionStarted ∨ e = EventType.ConnectionFailed) := by
            simp [connScope] at hcsf
            tauto
          cases w <;>
            simp [writtenB_eq hw, applyWriter, writeEvent, writeSessionId,
              writeSequence, writeErrorCode, writePayload, presenceRule, hvt, hcf,
              hf4, he, hc, hcsf, hd4, hbt]
      · have hb4 : (m.flag == MsgTypeFlagBits.WithEvent) = false :=
          beq_eq_false_iff_ne.mpr hf4
        obtain ⟨c, hc⟩ : ∃ c, m.errorCode = some c :=
          Option.isSome_iff_exists.mp (hs3 ht15)
        have hw := getWriters_err hf4 ht15
        cases w <;>
          simp [writtenB_eq hw, applyWriter, writeEvent, writeSessionId,
            writeSequence, writeErrorCode, writePayload, presenceRule, hvt, hcf,
            hb4, hc, hbt]
  · have hvf : validType m.type = false := by
      revert hvt; cases validType m.type <;> simp
    have hparts : isContent m.type = false ∧ (m.type == MsgType.Error) = false := by
      revert hvf; unfold validType; cases isContent m.type <;>
        cases m.type == MsgType.Error <;> simp
    have hgw : getWriters m = .error (.unsupportedMessageType m.type) := by
      have h2 : m.type ≠ MsgType.Error := by
        intro h
        rw [h] at hparts
        simpa using hparts.2
      simp [getWriters, hparts.1, h2]
    have hwB : ∀ w2, writtenB m w2 = false := by
      intro w2
      unfold writtenB
      rw [hgw]
    cases w <;> simp [hwB, presenceRule, hvf, hparts.1, hparts.2]

/-! ## Claim C3: presence by applicability -/

/-- Two messages with the same (kind, flag, event) triple, one with its
sequence set and one without. -/
def seqSetMsg : Message :=
  { createMessage MsgType.AudioOnlyServer MsgTypeFlagBits.PositiveSeq with
      sequence := some 5 }

def seqUnsetMsg : Message :=
  createMessage MsgType.AudioOnlyServer MsgTypeFlagBits.PositiveSeq

/-- C3, counterexample: two Messages with the identical
(kind, flag, event) triple — AudioOnlyServer with PositiveSeq — differ
in whether the sequence field appears in their encoded frames,
depending only on whether `sequence` happens to be set
(`writeSequence` returns null for an unset sequence), so presence is
NOT fully determined by (kind, flag, event) for `marshalMessage`. -/
theorem presence_counterexample :
    (seqSetMsg.type, seqSetMsg.flag, seqSetMsg.event) =
      (seqUnsetMsg.type, seqUnsetMsg.flag, seqUnsetMsg.event) ∧
    writtenB seqSetMsg .wSequence = true ∧
    writtenB seqUnsetMsg .wSequence = false :=
  ⟨rfl, rfl, rfl⟩

/-- C3, amended: (i) for `marshalMessage`, restricted to messages whose
applicable fields are all set, whether each optional field appears in
the encoded frame is fully determined by (kind, flag, event) — it
equals `presenceRule` of that triple; (ii) for `unmarshalMessage`,
whether event/sequence/errorCode are set in the decoded message is
fully determined by (kind, flag), while sessionId/connectId can be set
only when applicable per (flag, event) (their presence additionally
requires a non-zero declared length in the frame). -/
theorem presence_by_applicability :
    (∀ (m : Message), setOK m → ∀ w : Writer,
      writtenB m w = presenceRule m.type m.flag m.event w) ∧
    (∀ (data : List Nat) (m : Message), unmarshalMessage data = .ok m →
      (m.event.isSome = true ↔ m.flag = MsgTypeFlagBits.WithEvent) ∧
      (m.sequence.isSome = true ↔ (isContent m.type = true ∧
        (m.flag = MsgTypeFlagBits.PositiveSeq ∨
          m.flag = MsgTypeFlagBits.NegativeSeq))) ∧
      (m.errorCode.isSome = true ↔ m.type = MsgType.Error) ∧
      (m.sessionId.isSome = true → m.flag = MsgTypeFlagBits.WithEvent ∧
        ∃ e, m.event = some e ∧
          ¬(e = EventType.StartConnection ∨ e = EventType.FinishConnection ∨
            e = EventType.ConnectionStarted ∨ e = EventType.ConnectionFailed ∨
            e = EventType.ConnectionFinished)) ∧
      (m.connectId.isSome = true → m.flag = MsgTypeFlagBits.WithEvent ∧
        ∃ e, m.event = some e ∧
          (e = EventType.ConnectionStarted ∨ e = EventType.ConnectionFailed ∨
            e = EventType.ConnectionFinished))) :=
  ⟨enc_presence, fun _ _ h => decode_presence h⟩

theorem presence_by_applicability_witness :
    writtenB seqSetMsg .wSequence =
      presenceRule seqSetMsg.type seqSetMsg.flag seqSetMsg.event .wSequence :=
  presence_by_applicability.1 seqSetMsg (by decide) .wSequence

/-! ## Truncation machinery (claim C5) -/

lemma getD_take {l : List Nat} {k i : Nat} (h : i < k) :
    (l.take k).getD i 0 = l.getD i 0 := by
  rw [List.getD_eq_getElem?_getD, List.getD_eq_getElem?_getD, List.getElem?_take,
    if_pos h]

lemma getU32_take {data : List Nat} {k o : Nat} (h : o + 4 ≤ k) :
    getU32 (data.take k) o = getU32 data o := by
  unfold getU32
  rw [getD_take (by omega), getD_take (by omega), getD_take (by omega),
    getD_take (by omega)]

lemma getI32_take {data : List Nat} {k o : Nat} (h : o + 4 ≤ k) :
    getI32 (data.take k) o = getI32 data o := by
  unfold getI32
  rw [getU32_take h]

lemma slice_take {data : List Nat} {k o sz : Nat} (h : o + sz ≤ k) :
    sliceList (data.take k) o sz = sliceList data o sz := by
  unfold sliceList
  rw [List.drop_take, List.take_take]
  have hmin : sz ⊓ (k - o) = sz := by omega
  rw [hmin]

lemma applyReader_mono {r : Reader} {m : Message} {data : List Nat} {o : Nat}
    {m' : Message} {o' : Nat} (h : applyReader r m data o = .ok (m', o')) :
    o ≤ o' := by
  cases r <;> simp only [applyReader] at h
  case rEvent =>
    obtain ⟨-, ho⟩ := readEvent_ok_inv h; omega
  case rSequence =>
    obtain ⟨-, ho⟩ := readSequence_ok_inv h; omega
  case rErrorCode =>
    obtain ⟨-, ho⟩ := readErrorCode_ok_inv h; omega
  case rSessionId =>
    unfold readSessionId at h
    cases hev : m.event with
    | none =>
      rw [hev] at h
      simp only [Except.ok.injEq, Prod.mk.injEq] at h
      omega
    | some e =>
      rw [hev] at h
      dsimp only at h
      split at h
      · simp only [Except.ok.injEq, Prod.mk.injEq] at h; omega
      · split at h
        · cases h
        · split at h
          · split at h
            · cases h
            · simp only [Except.ok.injEq, Prod.mk.injEq] at h; omega
          · simp only [Except.ok.injEq, Prod.mk.injEq] at h; omega
  case rConnectId =>
    unfold readConnectId at h
    cases hev : m.event with
    | none =>
      rw [hev] at h
      simp only [Except.ok.injEq, Prod.mk.injEq] at h
      omega
    | some e =>
      rw [hev] at h
      dsimp only at h
      split at h
      · split at h
        · cases h
        · split at h
          · split at h
            · cases h
            · simp only [Except.ok.injEq, Prod.mk.injEq] at h; omega
          · simp only [Except.ok.injEq, Prod.mk.injEq] at h; omega
      · simp only [Except.ok.injEq, Prod.mk.injEq] at h; omega
  case rPayload =>
    unfold readPayload at h
    split at h
    · cases h
    · dsimp only at h
      split at h
      · split at h
        · cases h
        · simp only [Except.ok.injEq, Prod.mk.injEq] at h; omega
      · simp only [Except.ok.injEq, Prod.mk.injEq] at h; omega

lemma applyReader_take_ok {r : Reader} {m : Message} {data : List Nat} {o : Nat}
    {m' : Message} {o' : Nat} {k : Nat}
    (h : applyReader r m data o = .ok (m', o')) (hk : o' ≤ k) :
    applyReader r m (data.take k) o = .ok (m', o') := by
  cases r <;> simp only [applyReader] at h ⊢
  case rEvent =>
    unfold readEvent at h ⊢
    split at h
    · cases h
    · rename_i hb
      have hparts := h
      simp only [Except.ok.injEq, Prod.mk.injEq] at hparts
      rw [if_neg (by simp [List.length_take]; omega),
        getI32_take (by omega : o + 4 ≤ k)]
      exact h
  case rSequence =>
    unfold readSequence at h ⊢
    split at h
    · cases h
    · rename_i hb
      have hparts := h
      simp only [Except.ok.injEq, Prod.mk.injEq] at hparts
      rw [if_neg (by simp [List.length_take]; omega),
        getI32_take (by omega : o + 4 ≤ k)]
      exact h
  case rErrorCode =>
    unfold readErrorCode at h ⊢
    split at h
    · cases h
    · rename_i hb
      have hparts := h
      simp only [Except.ok.injEq, Prod.mk.injEq] at hparts
      rw [if_neg (by simp [List.length_take]; omega),
        getU32_take (by omega : o + 4 ≤ k)]
      exact h
  case rSessionId =>
    unfold readSessionId at h ⊢
    cases hev : m.event with
    | none =>
      rw [hev] at h
      dsimp only at h ⊢
      exact h
    | some e =>
      rw [hev] at h
      dsimp only at h ⊢
      by_cases hexc : e = EventType.StartConnection ∨ e = EventType.FinishConnection ∨
          e = EventType.ConnectionStarted ∨ e = EventType.ConnectionFailed ∨
          e = EventType.ConnectionFinished
      · rw [if_pos hexc] at h ⊢
        exact h
      · rw [if_neg hexc] at h ⊢
        split at h
        · cases h
        · rename_i hb1
          by_cases hsz : 0 < getU32 data o
          · rw [if_pos hsz] at h
            split at h
            · cases h
            · rename_i hb2
              have hparts := h
              simp only [Except.ok.injEq, Prod.mk.injEq] at hparts
              have ho' : o' = o + 4 + getU32 data o := hparts.2.symm
              rw [if_neg (by simp [List.length_take]; omega),
                getU32_take (by omega : o + 4 ≤ k), if_pos hsz,
                if_neg (by simp [List.length_take]; omega),
                slice_take (by omega : o + 4 + getU32 data o ≤ k)]
              exact h
          · rw [if_neg hsz] at h
            have hparts := h
            simp only [Except.ok.injEq, Prod.mk.injEq] at hparts
            rw [if_neg (by simp [List.length_take]; omega),
              getU32_take (by omega : o + 4 ≤ k), if_neg hsz]
            exact h
  case rConnectId =>
    unfold readConnectId at h ⊢
    cases hev : m.event with
    | none =>
      rw [hev] at h
      dsimp only at h ⊢
      exact h
    | some e =>
      rw [hev] at h
      dsimp only at h ⊢
      by_cases hin : e = EventType.ConnectionStarted ∨ e = EventType.ConnectionFailed ∨
          e = EventType.ConnectionFinished
      · rw [if_pos hin] at h ⊢
        split at h
        · cases h
        · rename_i hb1
          by_cases hsz : 0 < getU32 data o
          · rw [if_pos hsz] at h
            split at h
            · cases h
            · rename_i hb2
              have hparts := h
              simp only [Except.ok.injEq, Prod.mk.injEq] at hparts
              have ho' : o' = o + 4 + getU32 data o := hparts.2.symm
              rw [if_neg (by simp [List.length_take]; omega),
                getU32_take (by omega : o + 4 ≤ k), if_pos hsz,
                if_neg (by simp [List.length_take]; omega),
                slice_take (by omega : o + 4 + getU32 data o ≤ k)]
              exact h
          · rw [if_neg hsz] at h
            have hparts := h
            simp only [Except.ok.injEq, Prod.mk.injEq] at hparts
            rw [if_neg (by simp [List.length_take]; omega),
              getU32_take (by omega : o + 4 ≤ k), if_neg hsz]
            exact h
      · rw [if_neg hin] at h ⊢
        exact h
  case rPayload =>
    unfold readPayload at h ⊢
    split at h
    · cases h
    · rename_i hb1
      dsimp only at h ⊢
      by_cases hsz : 0 < getU32 data o
      · rw [if_pos hsz] at h
        split at h
        · cases h
        · rename_i hb2
          have hparts := h
          simp only [Except.ok.injEq, Prod.mk.injEq] at hparts
          have ho' : o' = o + 4 + getU32 data o := hparts.2.symm
          rw [if_neg (by simp [List.length_take]; omega),
            getU32_take (by omega : o + 4 ≤ k), if_pos hsz,
            if_neg (by simp [List.length_take]; omega),
            slice_take (by omega : o + 4 + getU32 data o ≤ k)]
          exact h
      · rw [if_neg hsz] at h
        have hparts := h
        simp only [Except.ok.injEq, Prod.mk.injEq] at hparts
        rw [if_neg (by simp [List.length_take]; omega),
          getU32_take (by omega : o + 4 ≤ k), if_neg hsz]
        exact h

lemma applyReader_take_err {r : Reader} {m : Message} {data : List Nat} {o : Nat}
    {m' : Message} {o' : Nat} {k : Nat}
    (h : applyReader r m data o = .ok (m', o')) (hok : o ≤ k) (hk : k < o') :
    ∃ e2, applyReader r m (data.take k) o = .error e2 ∧ e2.isFieldTrunc = true := by
  cases r <;> simp only [applyReader] at h ⊢
  case rEvent =>
    unfold readEvent at h ⊢
    split at h
    · cases h
    · have hparts := h
      simp only [Except.ok.injEq, Prod.mk.injEq] at hparts
      exact ⟨.insufficientEvent,
        by rw [if_pos (by simp [List.length_take]; omega)], rfl⟩
  case rSequence =>
    unfold readSequence at h ⊢
    split at h
    · cases h
    · have hparts := h
      simp only [Except.ok.injEq, Prod.mk.injEq] at hparts
      exact ⟨.insufficientSequence,
        by rw [if_pos (by simp [List.length_take]; omega)], rfl⟩
  case rErrorCode =>
    unfold readErrorCode at h ⊢
    split at h
    · cases h
    · have hparts := h
      simp only [Except.ok.injEq, Prod.mk.injEq] at hparts
      exact ⟨.insufficientErrorCode,
        by rw [if_pos (by simp [List.length_take]; omega)], rfl⟩
  case rSessionId =>
    unfold readSessionId at h ⊢
    cases hev : m.event with
    | none =>
      rw [hev] at h
      dsimp only at h ⊢
      simp only [Except.ok.injEq, Prod.mk.injEq] at h
      omega
    | some e =>
      rw [hev] at h
      dsimp only at h ⊢
      by_cases hexc : e = EventType.StartConnection ∨ e = EventType.FinishConnection ∨
          e = EventType.ConnectionStarted ∨ e = EventType.ConnectionFailed ∨
          e = EventType.ConnectionFinished
      · rw [if_pos hexc] at h
        simp only [Except.ok.injEq, Prod.mk.injEq] at h
        omega
      · rw [if_neg hexc] at h
        rw [if_neg hexc]
        split at h
        · cases h
        · rename_i hb1
          by_cases hk4 : k < o + 4
          · exact ⟨.insufficientSessionIdSize,
              by rw [if_pos (by simp [List.length_take]; omega)], rfl⟩
          · by_cases hsz : 0 < getU32 data o
            · rw [if_pos hsz] at h
              split at h
              · cases h
              · rename_i hb2
                have hparts := h
                simp only [Except.ok.injEq, Prod.mk.injEq] at hparts
                refine ⟨.insufficientSessionId, ?_, rfl⟩
                rw [if_neg (by simp [List.length_take]; omega),
                  getU32_take (by omega : o + 4 ≤ k), if_pos hsz,
                  if_pos (by simp [List.length_take]; omega)]
            · rw [if_neg hsz] at h
              simp only [Except.ok.injEq, Prod.mk.injEq] at h
              omega
  case rConnectId =>
    unfold readConnectId at h ⊢
    cases hev : m.event with
    | none =>
      rw [hev] at h
      dsimp only at h ⊢
      simp only [Except.ok.injEq, Prod.mk.injEq] at h
      omega
    | some e =>
      rw [hev] at h
      dsimp only at h ⊢
      by_cases hin : e = EventType.ConnectionStarted ∨ e = EventType.ConnectionFailed ∨
          e = EventType.ConnectionFinished
      · rw [if_pos hin] at h
        rw [if_pos hin]
        split at h
        · cases h
        · rename_i hb1
          by_cases hk4 : k < o + 4
          · exact ⟨.insufficientConnectIdSize,
              by rw [if_pos (by simp [List.length_take]; omega)], rfl⟩
          · by_cases hsz : 0 < getU32 data o
            · rw [if_pos hsz] at h
              split at h
              · cases h
              · rename_i hb2
                have hparts := h
                simp only [Except.ok.injEq, Prod.mk.injEq] at hparts
                refine ⟨.insufficientConnectId, ?_, rfl⟩
                rw [if_neg (by simp [List.length_take]; omega),
                  getU32_take (by omega : o + 4 ≤ k), if_pos hsz,
                  if_pos (by simp [List.length_take]; omega)]
            · rw [if_neg hsz] at h
              simp only [Except.ok.injEq, Prod.mk.injEq] at h
              omega
      · rw [if_neg hin] at h
        simp only [Except.ok.injEq, Prod.mk.injEq] at h
        omega
  case rPayload =>
    unfold readPayload at h ⊢
    split at h
    · cases h
    · rename_i hb1
      dsimp only at h ⊢
      by_cases hk4 : k < o + 4
      · exact ⟨.insufficientPayloadSize,
          by rw [if_pos (by simp [List.length_take]; omega)], rfl⟩
      · by_cases hsz : 0 < getU32 data o
        · rw [if_pos hsz] at h
          split at h
          · cases h
          · rename_i hb2
            have hparts := h
            simp only [Except.ok.injEq, Prod.mk.injEq] at hparts
            refine ⟨.insufficientPayload, ?_, rfl⟩
            rw [if_neg (by simp [List.length_take]; omega),
              getU32_take (by omega : o + 4 ≤ k), if_pos hsz,
              if_pos (by simp [List.length_take]; omega)]
        · rw [if_neg hsz] at h
          simp only [Except.ok.injEq, Prod.mk.injEq] at h
          omega

lemma runReaders_mono : ∀ {rs : List Reader} {m : Message} {data : List Nat}
    {o : Nat} {m' : Message} {o' : Nat},
    runReaders rs m data o = .ok (m', o') → o ≤ o' := by
  intro rs
  induction rs with
  | nil =>
    intro m data o m' o' h
    obtain ⟨-, ho⟩ := runReaders_nil_ok_inv h
    omega
  | cons r rest ih =>
    intro m data o m' o' h
    obtain ⟨m1, o1, h1, h2⟩ := runReaders_cons_ok_inv h
    exact le_trans (applyReader_mono h1) (ih h2)

/-- Truncating a buffer strictly before the final offset of a
successful reader run makes the run fail with a field-truncation
error. -/
lemma runReaders_take_err : ∀ {rs : List Reader} {m : Message} {data : List Nat}
    {o : Nat} {m' : Message} {o' : Nat} {k : Nat},
    runReaders rs m data o = .ok (m', o') → o ≤ k → k < o' →
    ∃ e2, runReaders rs m (data.take k) o = .error e2 ∧ e2.isFieldTrunc = true := by
  intro rs
  induction rs with
  | nil =>
    intro m data o m' o' k h hok hk
    obtain ⟨-, ho⟩ := runReaders_nil_ok_inv h
    omega
  | cons r rest ih =>
    intro m data o m' o' k h hok hk
    obtain ⟨m1, o1, h1, h2⟩ := runReaders_cons_ok_inv h
    by_cases hk1 : o1 ≤ k
    · obtain ⟨e2, herr, htr⟩ := ih h2 hk1 hk
      refine ⟨e2, ?_, htr⟩
      unfold runReaders
      rw [applyReader_take_ok h1 hk1]
      exact herr
    · obtain ⟨e2, herr, htr⟩ := applyReader_take_err h1 hok (by omega)
      refine ⟨e2, ?_, htr⟩
      unfold runReaders
      rw [herr]

lemma getReaders_head {t f : Nat} {rs : List Reader}
    (h : getReaders t f = .ok rs) :
    ∃ r rest, rs = r :: rest ∧ (r = .rSequence ∨ r = .rErrorCode ∨
      r = .rEvent ∨ r = .rPayload) := by
  unfold getReaders at h
  dsimp only at h
  split at h
  · split at h
    · simp only [Except.ok.injEq] at h
      exact ⟨_, _, h.symm, Or.inl rfl⟩
    · split at h
      · simp only [Except.ok.injEq] at h
        exact ⟨_, _, h.symm, by tauto⟩
      · simp only [Except.ok.injEq] at h
        exact ⟨_, _, h.symm, by tauto⟩
  · split at h
    · simp only [Except.ok.injEq] at h
      exact ⟨_, _, h.symm, by tauto⟩
    · cases h

/-- A header-checked reader fails with a truncation error whenever even
its fixed 4-byte field does not fit. -/
lemma checked_head_err {r : Reader} {m : Message} {data2 : List Nat} {o : Nat}
    (hr : r = .rSequence ∨ r = .rErrorCode ∨ r = .rEvent ∨ r = .rPayload)
    (hshort : data2.length < o + 4) :
    ∃ e2, applyReader r m data2 o = .error e2 ∧ e2.isFieldTrunc = true := by
  rcases hr with h | h | h | h <;> subst h <;> simp only [applyReader]
  · exact ⟨.insufficientSequence, by unfold readSequence; rw [if_pos (by omega)], rfl⟩
  · exact ⟨.insufficientErrorCode, by unfold readErrorCode; rw [if_pos (by omega)], rfl⟩
  · exact ⟨.insufficientEvent, by unfold readEvent; rw [if_pos (by omega)], rfl⟩
  · exact ⟨.insufficientPayloadSize, by unfold readPayload; rw [if_pos (by omega)], rfl⟩

/-! ## Claim C5: truncation safety -/

/-- A buffer is a well-formed frame when it has at least the 3 header
bytes and the decoder's reader run succeeds consuming it exactly. -/
def decodesExactly (data : List Nat) : Prop :=
  3 ≤ data.length ∧ ∃ rs mfin,
    getReaders (decodeInit data).type (decodeInit data).flag = .ok rs ∧
    runReaders rs (decodeInit data) data (4 * (decodeInit data).headerSize) =
      .ok (mfin, data.length)

/-- C5: truncating a well-formed frame anywhere before its end makes
`unmarshalMessage` fail — with `data too short` (FrameTooShort) exactly
when fewer than 3 bytes remain, and with one of the
`insufficient data for ...` (TruncatedField) errors otherwise; it never
returns a Message and never fails with an unrelated error. -/
theorem truncation_safety (data : List Nat) (hwfr : decodesExactly data)
    (k : Nat) (hk : k < data.length) :
    ∃ e, unmarshalMessage (data.take k) = .error e ∧
      (k < 3 → e = .frameTooShort k) ∧ (3 ≤ k → e.isFieldTrunc = true) := by
  obtain ⟨h3, rs, mfin, hgr, hrun⟩ := hwfr
  have hlenk : (data.take k).length = k := by
    simp [List.length_take]
    omega
  by_cases hk3 : k < 3
  · refine ⟨.frameTooShort k, ?_, fun _ => rfl, fun hge => by omega⟩
    unfold unmarshalMessage
    rw [if_pos (by rw [hlenk]; exact hk3), hlenk]
  · push_neg at hk3
    have hinit : decodeInit (data.take k) = decodeInit data := by
      unfold decodeInit
      rw [getD_take (show (0 : Nat) < k by omega),
        getD_take (show (1 : Nat) < k by omega),
        getD_take (show (2 : Nat) < k by omega)]
    by_cases ho0 : 4 * (decodeInit data).headerSize ≤ k
    · obtain ⟨e2, herr, htr⟩ := runReaders_take_err hrun ho0 hk
      refine ⟨e2, ?_, fun hlt => by omega, fun _ => htr⟩
      unfold unmarshalMessage
      rw [if_neg (by rw [hlenk]; omega), hinit]
      simp only [hgr, herr]
    · push_neg at ho0
      obtain ⟨r, rest, hrs, hr⟩ := getReaders_head hgr
      obtain ⟨e2, herr, htr⟩ := @checked_head_err r (decodeInit data)
        (data.take k) (4 * (decodeInit data).headerSize) hr
        (by rw [hlenk]; omega)
      have hrune : runReaders (r :: rest) (decodeInit data) (data.take k)
          (4 * (decodeInit data).headerSize) = .error e2 := by
        unfold runReaders
        rw [herr]
      refine ⟨e2, ?_, fun hlt => by omega, fun _ => htr⟩
      unfold unmarshalMessage
      rw [if_neg (by rw [hlenk]; omega), hinit]
      rw [hrs] at hgr
      simp only [hgr, hrune]

/-- Witness frame: FullClientRequest, NoSeq, payload `{}` (10 bytes). -/
def wTruncFrame : List Nat := [17, 16, 16, 0, 0, 0, 0, 2, 123, 125]

theorem truncation_safety_witness :
    ∃ e, unmarshalMessage (wTruncFrame.take 5) = .error e ∧
      (5 < 3 → e = .frameTooShort 5) ∧ ((3 : Nat) ≤ 5 → e.isFieldTrunc = true) :=
  truncation_safety wTruncFrame
    ⟨by decide, [.rPayload],
      { version := 1, headerSize := 1, type := 1, flag := 0, serialization := 1,
        compression := 0, payload := [123, 125] }, rfl, rfl⟩
    5 (by decide)

end Protocols
